import Mathlib

/-!
# Verification of the zk-battleship Soroban contract

Shallow embedding of `src/contracts/battleship/src/lib.rs` (the
`BattleshipContract` implementation) and proofs about it.

Modelling conventions, chosen to mirror the Soroban host semantics:

* Contract storage (the `temporary()` keyed store) is a `Storage` record with
  one field per `DataKey` variant; the per-address `PlayerState` map is an
  association list.
* Addresses, `u32` values and bytes are `Nat` (no arithmetic in the contract
  can overflow in a way any claim depends on: coordinates are bounds-checked
  below 10 before use and the hit counter is bounded by 17 in reachable
  states).
* `BytesN<32>` / `BytesN<256>` values are `List Nat` of the corresponding
  length.
* Each entry point is a function `Storage → Tx _` where `Tx` is `Except` over
  either a contract `GameError` or a host trap (`.unwrap()` on a missing
  storage value, `Vec::set` out of range).  An `Except.error` result models a
  reverted transaction: the caller's storage is unchanged, which is how the
  Soroban host treats a contract invocation returning `Err` (and why the step
  relation below only rewrites storage on `Except.ok`).
* The external Game Hub calls (`start_game`, `end_game`) do not touch this
  contract's storage and are modelled as succeeding; events, `log!` and TTL
  extension have no storage effect and are omitted.
-/

namespace Battleship

/-- Contract addresses, modelled as natural numbers. -/
abbrev Addr := Nat

/-- The `GameError` enum from the source, verbatim. -/
inductive GameError where
  | NotInitialized
  | InvalidPhase
  | NotAPlayer
  | NotYourTurn
  | AlreadyCommitted
  | OutOfBounds
  | AlreadyShot
  | ProofInvalid
  | GameOver
  | InvalidResponse
deriving DecidableEq, Repr

/-- The `GamePhase` enum from the source. -/
inductive GamePhase where
  | WaitingForCommits
  | Player1Turn
  | Player2Turn
  | WaitingForProof
  | Finished
deriving DecidableEq, Repr

/-- The `PendingShot` struct from the source. -/
structure PendingShot where
  attacker : Addr
  defender : Addr
  x : Nat
  y : Nat
deriving DecidableEq, Repr

/-- The `ShotRecord` struct from the source. -/
structure ShotRecord where
  x : Nat
  y : Nat
  is_hit : Bool
deriving DecidableEq, Repr

/-- The `PlayerState` struct from the source. -/
structure PlayerState where
  commitment : List Nat
  committed : Bool
  hits_received : Nat
  shot_mask : List Bool
  shot_history : List ShotRecord
deriving DecidableEq, Repr

/-- The contract's temporary storage, one field per `DataKey` variant.
`none` models an absent key. -/
structure Storage where
  hubAddress : Option Addr
  sessionId : Option Nat
  phase : Option GamePhase
  player1 : Option Addr
  player2 : Option Addr
  playerStates : List (Addr × PlayerState)
  pendingShot : Option PendingShot
  winner : Option Addr
deriving DecidableEq, Repr

/-- Storage with no keys set (a fresh contract instance). -/
def emptyStorage : Storage :=
  ⟨none, none, none, none, none, [], none, none⟩

/-- Outcome of a contract invocation: a contract error, or a host trap
(an `unwrap()` on a missing value or an out-of-range `Vec::set`).  Either
way the transaction reverts. -/
inductive TxError where
  | game (e : GameError)
  | trap
deriving DecidableEq, Repr

/-- Transaction result monad. -/
abbrev Tx (α : Type) := Except TxError α

/-- Return a contract error. -/
def fail {α : Type} (e : GameError) : Tx α :=
  Except.error (TxError.game e)

/-- Models `.ok_or(e)?` on a storage read. -/
def fromOption {α : Type} (o : Option α) (e : GameError) : Tx α :=
  match o with
  | some a => Except.ok a
  | none => fail e

/-- Models `.unwrap()` on a storage read: a missing value traps. -/
def unwrapTx {α : Type} (o : Option α) : Tx α :=
  match o with
  | some a => Except.ok a
  | none => Except.error TxError.trap

/-- Lookup in the `DataKey::PlayerState(addr)` keyed map. -/
def psGet : List (Addr × PlayerState) → Addr → Option PlayerState
  | [], _ => none
  | (a, v) :: rest, k => if a = k then some v else psGet rest k

/-- Store under `DataKey::PlayerState(addr)`: overwrite if present, else add. -/
def psSet : List (Addr × PlayerState) → Addr → PlayerState → List (Addr × PlayerState)
  | [], k, v => [(k, v)]
  | (a, w) :: rest, k, v =>
      if a = k then (k, v) :: rest else (a, w) :: psSet rest k v

/-- Models `shot_mask.get(i).unwrap_or(false)` (soroban `Vec::get` returns
`None` out of range). -/
def maskGet : List Bool → Nat → Bool
  | [], _ => false
  | b :: _, 0 => b
  | _ :: rest, n + 1 => maskGet rest n

/-- Models soroban `Vec::set`, which traps when the index is out of range;
`none` is the trap. -/
def vecSet : List Bool → Nat → Bool → Option (List Bool)
  | [], _, _ => none
  | _ :: rest, 0, v => some (v :: rest)
  | b :: rest, n + 1, v =>
      match vecSet rest n v with
      | none => none
      | some r => some (b :: r)

/-- Number of `is_hit = true` entries in a shot history. -/
def countHits : List ShotRecord → Nat
  | [] => 0
  | r :: rest => (if r.is_hit then 1 else 0) + countHits rest

/-- A fresh `PlayerState` as built by `initialize`: zero commitment,
uncommitted, no hits, all-false 100-cell mask, empty history. -/
def emptyPS : PlayerState :=
  ⟨List.replicate 32 0, false, 0, List.replicate 100 false, []⟩

/-- Models `initialize` from the source (renamed because `initialize` is a
Lean keyword).  Stores hub address, session id, both players, phase
`WaitingForCommits` and two fresh player records.  The hub `start_game`
call is external and modelled as succeeding; it does not touch this
contract's storage.  Faithful detail: the source performs **no prior-state
check** and never writes `DataKey::PendingShot` or `DataKey::Winner`, so a
pre-existing pending shot or winner survives re-initialisation. -/
def initGame (s : Storage) (hub : Addr) (sid : Nat) (p1 p2 : Addr) : Tx Storage :=
  let s1 : Storage :=
    { s with hubAddress := some hub, sessionId := some sid,
             player1 := some p1, player2 := some p2,
             phase := some GamePhase.WaitingForCommits }
  let s2 : Storage :=
    { s1 with playerStates := psSet (psSet s1.playerStates p1 emptyPS) p2 emptyPS }
  Except.ok s2

/-- Models the internal helper `require_player`. -/
def require_player (s : Storage) (player : Addr) : Tx Unit :=
  match s.player1 with
  | none => fail GameError.NotInitialized
  | some p1 =>
    match s.player2 with
    | none => fail GameError.NotInitialized
    | some p2 =>
      if player ≠ p1 ∧ player ≠ p2 then fail GameError.NotAPlayer
      else Except.ok ()

/-- Models `commit_fleet` from the source, in the source's check order:
phase fetch, phase guard, `require_player`, player-state fetch,
already-committed guard, record update, both-committed check. -/
def commit_fleet (s : Storage) (player : Addr) (commitment_hash : List Nat) : Tx Storage :=
  match s.phase with
  | none => fail GameError.NotInitialized
  | some phase =>
    if phase ≠ GamePhase.WaitingForCommits then fail GameError.InvalidPhase
    else
      match require_player s player with
      | Except.error e => Except.error e
      | Except.ok _ =>
        match psGet s.playerStates player with
        | none => fail GameError.NotInitialized
        | some st =>
          if st.committed then fail GameError.AlreadyCommitted
          else
            let st' : PlayerState := { st with commitment := commitment_hash, committed := true }
            let s1 : Storage := { s with playerStates := psSet s.playerStates player st' }
            match unwrapTx s1.player1 with
            | Except.error e => Except.error e
            | Except.ok p1 =>
              match unwrapTx s1.player2 with
              | Except.error e => Except.error e
              | Except.ok p2 =>
                match unwrapTx (psGet s1.playerStates p1) with
                | Except.error e => Except.error e
                | Except.ok p1s =>
                  match unwrapTx (psGet s1.playerStates p2) with
                  | Except.error e => Except.error e
                  | Except.ok p2s =>
                    if p1s.committed && p2s.committed then
                      Except.ok { s1 with phase := some GamePhase.Player1Turn }
                    else
                      Except.ok s1

/-- Models `fire_shot` from the source, in the source's check order:
phase fetch, `Player1`/`Player2` unwraps, turn guard, bounds guard,
defender computation, defender-state unwrap, shot-mask duplicate guard,
then pending-shot creation and phase change. -/
def fire_shot (s : Storage) (attacker : Addr) (x y : Nat) : Tx Storage :=
  match s.phase with
  | none => fail GameError.NotInitialized
  | some phase =>
    match unwrapTx s.player1 with
    | Except.error e => Except.error e
    | Except.ok p1 =>
      match unwrapTx s.player2 with
      | Except.error e => Except.error e
      | Except.ok p2 =>
        match
          (match phase with
           | GamePhase.Player1Turn =>
               if attacker ≠ p1 then fail GameError.NotYourTurn else Except.ok ()
           | GamePhase.Player2Turn =>
               if attacker ≠ p2 then fail GameError.NotYourTurn else Except.ok ()
           | _ => fail GameError.InvalidPhase : Tx Unit)
        with
        | Except.error e => Except.error e
        | Except.ok _ =>
          if x ≥ 10 ∨ y ≥ 10 then fail GameError.OutOfBounds
          else
            let defender : Addr := if attacker = p1 then p2 else p1
            match unwrapTx (psGet s.playerStates defender) with
            | Except.error e => Except.error e
            | Except.ok defender_state =>
              let index : Nat := x * 10 + y
              if maskGet defender_state.shot_mask index then fail GameError.AlreadyShot
              else
                let pending : PendingShot := ⟨attacker, defender, x, y⟩
                Except.ok { s with pendingShot := some pending,
                                   phase := some GamePhase.WaitingForProof }

/-- Models the placeholder `verify_zk_proof` from the source: accepts any
proof different from the all-zero 256-byte array; the pending shot and the
response are ignored. -/
def verify_zk_proof (proof : List Nat) (_pending : PendingShot) (_response : Nat) : Bool :=
  decide (proof ≠ List.replicate 256 0)

/-- Models the internal `declare_winner`: sets phase `Finished` and the
winner, then reads hub address and session id (`NotInitialized` if absent)
and `Player1` (unwrap) for the external `end_game` call, which is modelled
as succeeding.  Returns `Ok(true)` as in the source. -/
def declare_winner (s : Storage) (winner : Addr) : Tx (Bool × Storage) :=
  let s1 : Storage := { s with phase := some GamePhase.Finished, winner := some winner }
  match fromOption s1.hubAddress GameError.NotInitialized with
  | Except.error e => Except.error e
  | Except.ok _ =>
    match fromOption s1.sessionId GameError.NotInitialized with
    | Except.error e => Except.error e
    | Except.ok _ =>
      match unwrapTx s1.player1 with
      | Except.error e => Except.error e
      | Except.ok _ => Except.ok (true, s1)

/-- Models `submit_response` from the source, in the source's check order:
phase fetch, phase guard, pending-shot fetch, defender guard, response
guard, proof verification, then board mutation (mask bit, history append,
hit count), pending-shot removal, win check / turn switch. -/
def submit_response (s : Storage) (defender : Addr) (response : Nat) (proof : List Nat) :
    Tx (Bool × Storage) :=
  match s.phase with
  | none => fail GameError.NotInitialized
  | some phase =>
    if phase ≠ GamePhase.WaitingForProof then fail GameError.InvalidPhase
    else
      match s.pendingShot with
      | none => fail GameError.NotInitialized
      | some pending =>
        if defender ≠ pending.defender then fail GameError.NotYourTurn
        else
          if response > 1 then fail GameError.InvalidResponse
          else
            let is_hit : Bool := response == 1
            if verify_zk_proof proof pending response = false then fail GameError.ProofInvalid
            else
              match unwrapTx (psGet s.playerStates defender) with
              | Except.error e => Except.error e
              | Except.ok defender_state =>
                let index : Nat := pending.x * 10 + pending.y
                match vecSet defender_state.shot_mask index true with
                | none => Except.error TxError.trap
                | some mask' =>
                  let record : ShotRecord := ⟨pending.x, pending.y, is_hit⟩
                  let defender_state' : PlayerState :=
                    { defender_state with
                        shot_mask := mask',
                        shot_history := defender_state.shot_history ++ [record],
                        hits_received :=
                          if is_hit then defender_state.hits_received + 1
                          else defender_state.hits_received }
                  let s1 : Storage :=
                    { s with playerStates := psSet s.playerStates defender defender_state',
                             pendingShot := none }
                  if defender_state'.hits_received ≥ 17 then
                    declare_winner s1 pending.attacker
                  else
                    match unwrapTx s1.player1 with
                    | Except.error e => Except.error e
                    | Except.ok p1 =>
                      if defender = p1 then
                        Except.ok (is_hit, { s1 with phase := some GamePhase.Player1Turn })
                      else
                        Except.ok (is_hit, { s1 with phase := some GamePhase.Player2Turn })

/-- Models `claim_victory` from the source, in the source's check order:
`require_player`, phase fetch, finished guard, opponent computation,
opponent-state unwrap, hit-count guard, `declare_winner`. -/
def claim_victory (s : Storage) (player : Addr) : Tx Storage :=
  match require_player s player with
  | Except.error e => Except.error e
  | Except.ok _ =>
    match s.phase with
    | none => fail GameError.NotInitialized
    | some phase =>
      if phase = GamePhase.Finished then fail GameError.GameOver
      else
        match unwrapTx s.player1 with
        | Except.error e => Except.error e
        | Except.ok p1 =>
          match unwrapTx s.player2 with
          | Except.error e => Except.error e
          | Except.ok p2 =>
            let opponent : Addr := if player = p1 then p2 else p1
            match unwrapTx (psGet s.playerStates opponent) with
            | Except.error e => Except.error e
            | Except.ok opponent_state =>
              if opponent_state.hits_received < 17 then fail GameError.InvalidPhase
              else
                match declare_winner s player with
                | Except.error e => Except.error e
                | Except.ok (_, s') => Except.ok s'

/-- Models `get_phase`. -/
def get_phase (s : Storage) : Tx GamePhase :=
  fromOption s.phase GameError.NotInitialized

/-- Models `get_players`. -/
def get_players (s : Storage) : Tx (Addr × Addr) :=
  match fromOption s.player1 GameError.NotInitialized with
  | Except.error e => Except.error e
  | Except.ok p1 =>
    match fromOption s.player2 GameError.NotInitialized with
    | Except.error e => Except.error e
    | Except.ok p2 => Except.ok (p1, p2)

/-- Models `get_commitment_status`. -/
def get_commitment_status (s : Storage) (player : Addr) : Tx Bool :=
  match fromOption (psGet s.playerStates player) GameError.NotInitialized with
  | Except.error e => Except.error e
  | Except.ok st => Except.ok st.committed

/-- Models `get_hits_received`. -/
def get_hits_received (s : Storage) (player : Addr) : Tx Nat :=
  match fromOption (psGet s.playerStates player) GameError.NotInitialized with
  | Except.error e => Except.error e
  | Except.ok st => Except.ok st.hits_received

/-- Models `get_shot_history`. -/
def get_shot_history (s : Storage) (player : Addr) : Tx (List ShotRecord) :=
  match fromOption (psGet s.playerStates player) GameError.NotInitialized with
  | Except.error e => Except.error e
  | Except.ok st => Except.ok st.shot_history

/-- Models `get_pending_shot`.  Note the source signature is
`Option<PendingShot>`, not `Result`: an absent pending shot is `None`,
never an error. -/
def get_pending_shot (s : Storage) : Option PendingShot :=
  s.pendingShot

/-- Models `get_winner`.  Note the source signature is `Option<Address>`,
not `Result`: an absent winner is `None`, never an error. -/
def get_winner (s : Storage) : Option Addr :=
  s.winner

/-- One successful mutating game operation after initialisation.  A failed
invocation reverts (the Soroban host discards storage writes of a contract
call returning `Err`), so only `Except.ok` results change storage. -/
inductive Step : Storage → Storage → Prop where
  | commit {s s' : Storage} (p : Addr) (c : List Nat) :
      commit_fleet s p c = Except.ok s' → Step s s'
  | fire {s s' : Storage} (a : Addr) (x y : Nat) :
      fire_shot s a x y = Except.ok s' → Step s s'
  | submit {s s' : Storage} (d : Addr) (r : Nat) (pf : List Nat) (b : Bool) :
      submit_response s d r pf = Except.ok (b, s') → Step s s'
  | claim {s s' : Storage} (p : Addr) :
      claim_victory s p = Except.ok s' → Step s s'

/-- A state produced by initialising a fresh contract instance.  Per the
spec (§4.3), `initialize` is the first operation of a match, so a match's
states are those reachable from such a state. -/
def InitState (s : Storage) : Prop :=
  ∃ hub sid p1 p2, initGame emptyStorage hub sid p1 p2 = Except.ok s

/-- Match states reachable by initialising and then running any sequence
of successful game operations. -/
def Reachable (s : Storage) : Prop :=
  ∃ s0, InitState s0 ∧ Relation.ReflTransGen Step s0 s


/-- The storage after a `submit_response` transaction: the new storage on
success, the unchanged storage when the call reverts (the Soroban host
discards the storage writes of a contract call returning `Err`). -/
def applyTx (s : Storage) (t : Tx (Bool × Storage)) : Storage :=
  match t with
  | Except.ok p => p.2
  | Except.error _ => s

/-- Whether a transaction succeeded. -/
def isOkTx {α : Type} (t : Tx α) : Bool :=
  match t with
  | Except.ok _ => true
  | Except.error _ => false

/-- The state invariant maintained by every reachable match state: the
bookkeeping keys are present, a pending shot exists exactly in phase
`WaitingForProof` and is well-formed, every stored player record has a
100-cell mask, a hit counter equal to the number of hits in its history
and at most 17, and a counter at 17 forces phase `Finished`. -/
structure Inv (s : Storage) : Prop where
  hub : s.hubAddress.isSome = true
  sid : s.sessionId.isSome = true
  phase_some : s.phase.isSome = true
  players : ∃ p1 p2, s.player1 = some p1 ∧ s.player2 = some p2 ∧
    (psGet s.playerStates p1).isSome = true ∧ (psGet s.playerStates p2).isSome = true
  pend_iff : s.pendingShot.isSome = true ↔ s.phase = some GamePhase.WaitingForProof
  pend_ok : ∀ ps, s.pendingShot = some ps → ps.x < 10 ∧ ps.y < 10 ∧
    ∃ p1 p2, s.player1 = some p1 ∧ s.player2 = some p2 ∧
      ((ps.attacker = p1 ∧ ps.defender = p2) ∨ (ps.attacker = p2 ∧ ps.defender = p1))
  st_ok : ∀ a st, psGet s.playerStates a = some st →
    st.shot_mask.length = 100 ∧ st.hits_received = countHits st.shot_history
  hits_le : ∀ a st, psGet s.playerStates a = some st → st.hits_received ≤ 17
  hits_fin : ∀ a st, psGet s.playerStates a = some st → 17 ≤ st.hits_received →
    s.phase = some GamePhase.Finished

/-! ## Concrete demonstration states

A short concrete match used by the witnesses: players `1` and `2`,
hub address `0`, session `0`. -/

/-- Extract the storage of a successful unit-returning invocation
(`emptyStorage` on error; the calls below all succeed). -/
def okOr (t : Tx Storage) : Storage :=
  match t with
  | Except.ok s => s
  | Except.error _ => emptyStorage

/-- Extract the storage of a successful `submit_response` invocation. -/
def okOr2 (t : Tx (Bool × Storage)) : Storage :=
  match t with
  | Except.ok p => p.2
  | Except.error _ => emptyStorage

/-- Freshly initialised match between players 1 and 2. -/
def demo0 : Storage := okOr (initGame emptyStorage 0 0 1 2)

/-- After player 1 commits a fleet. -/
def demo1 : Storage := okOr (commit_fleet demo0 1 (List.replicate 32 1))

/-- After player 2 also commits: phase `Player1Turn`. -/
def demo2 : Storage := okOr (commit_fleet demo1 2 (List.replicate 32 2))

/-- After player 1 fires at (3, 4): phase `WaitingForProof`. -/
def demo3 : Storage := okOr (fire_shot demo2 1 3 4)

/-- After player 2 responds "hit" with a non-zero proof: phase `Player2Turn`. -/
def demo4 : Storage := okOr2 (submit_response demo3 2 1 (List.replicate 256 1))

/-- After player 2 fires at (5, 5): phase `WaitingForProof`. -/
def demo5 : Storage := okOr (fire_shot demo4 2 5 5)

/-- After player 1 responds "miss": phase `Player1Turn`. -/
def demo6 : Storage := okOr2 (submit_response demo5 1 0 (List.replicate 256 1))

/-- Re-initialisation of an in-flight match (used to exhibit the missing
once-only guard of `initialize`). -/
def demoReinit : Storage := okOr (initGame demo3 9 9 1 2)

/-- A player record with 16 hits received, one short of defeat. -/
def nearWinPS : PlayerState :=
  { emptyPS with committed := true, hits_received := 16 }

/-- A match state in which player 2 has 16 hits received and a shot by
player 1 at (3, 4) is pending: the next verified hit ends the game. -/
def nearWinStorage : Storage :=
  { hubAddress := some 0, sessionId := some 0,
    phase := some GamePhase.WaitingForProof,
    player1 := some 1, player2 := some 2,
    playerStates := [(1, emptyPS), (2, nearWinPS)],
    pendingShot := some (PendingShot.mk 1 2 3 4),
    winner := none }

/-- A match state in which player 2 has 17 hits received while the phase
is still `Player1Turn` (exercises the `claim_victory` guards). -/
def claimStorage : Storage :=
  { hubAddress := some 0, sessionId := some 0,
    phase := some GamePhase.Player1Turn,
    player1 := some 1, player2 := some 2,
    playerStates := [(1, emptyPS), (2, { emptyPS with hits_received := 17 })],
    pendingShot := none,
    winner := none }

/-- Player 2's record in `demo3` (committed, no shots resolved yet). -/
def demo3p2 : PlayerState := (psGet demo3.playerStates 2).getD emptyPS

/-- Player 2's record in `demo4` (one hit received). -/
def demo4p2 : PlayerState := (psGet demo4.playerStates 2).getD emptyPS

/-- Player 1's record in `demo1` (committed). -/
def demo1p1 : PlayerState := (psGet demo1.playerStates 1).getD emptyPS

/-- The state after the 17th verified hit lands on player 2. -/
def nearWinFinal : Storage := okOr2 (submit_response nearWinStorage 2 1 (List.replicate 256 1))

/-- Player 2's record in `nearWinFinal` (17 hits received). -/
def nearWinP2 : PlayerState := (psGet nearWinFinal.playerStates 2).getD emptyPS


/-! ## Basic lemmas about the storage primitives -/

@[simp]
theorem fail_eq_ok_iff {α : Type} {e : GameError} {a : α} :
    (fail e = Except.ok a) ↔ False := by
  simp [fail]

@[simp]
theorem unwrapTx_some {α : Type} (a : α) : unwrapTx (some a) = Except.ok a := rfl

@[simp]
theorem unwrapTx_none {α : Type} : unwrapTx (none : Option α) = Except.error TxError.trap := rfl

theorem unwrapTx_eq_ok {α : Type} {o : Option α} {a : α} :
    unwrapTx o = Except.ok a ↔ o = some a := by
  cases o <;> simp [unwrapTx]

theorem fromOption_eq_ok {α : Type} {o : Option α} {e : GameError} {a : α} :
    fromOption o e = Except.ok a ↔ o = some a := by
  cases o <;> simp [fromOption]

theorem psGet_psSet (m : List (Addr × PlayerState)) (k k' : Addr) (v : PlayerState) :
    psGet (psSet m k v) k' = if k = k' then some v else psGet m k' := by
  induction m with
  | nil => simp [psSet, psGet]
  | cons hd tl ih =>
    obtain ⟨a, w⟩ := hd
    by_cases hak : a = k
    · subst hak
      by_cases hkk : a = k'
      · subst hkk; simp [psSet, psGet]
      · simp [psSet, psGet, hkk]
    · by_cases hak' : a = k'
      · subst hak'
        have hkk : ¬ k = a := fun hk => hak hk.symm
        simp [psSet, psGet, hak, hkk]
      · simp [psSet, psGet, hak, hak', ih]

theorem psGet_psSet_self (m : List (Addr × PlayerState)) (k : Addr) (v : PlayerState) :
    psGet (psSet m k v) k = some v := by
  simp [psGet_psSet]

theorem psGet_psSet_ne (m : List (Addr × PlayerState)) (k k' : Addr) (v : PlayerState)
    (h : k ≠ k') : psGet (psSet m k v) k' = psGet m k' := by
  simp [psGet_psSet, h]

theorem vecSet_length : ∀ {xs ys : List Bool} {i : Nat} {v : Bool},
    vecSet xs i v = some ys → ys.length = xs.length := by
  intro xs
  induction xs with
  | nil => intro ys i v h; simp [vecSet] at h
  | cons b rest ih =>
    intro ys i v h
    cases i with
    | zero =>
      simp only [vecSet, Option.some.injEq] at h
      subst h; simp
    | succ n =>
      simp only [vecSet] at h
      cases hr : vecSet rest n v with
      | none => rw [hr] at h; simp at h
      | some r =>
        rw [hr] at h
        simp only [Option.some.injEq] at h
        subst h
        simp [ih hr]

theorem vecSet_isSome {xs : List Bool} {i : Nat} (v : Bool) (h : i < xs.length) :
    ∃ ys, vecSet xs i v = some ys := by
  induction xs generalizing i with
  | nil => simp at h
  | cons b rest ih =>
    cases i with
    | zero => exact ⟨v :: rest, rfl⟩
    | succ n =>
      obtain ⟨ys, hys⟩ := ih (Nat.lt_of_succ_lt_succ h)
      exact ⟨b :: ys, by simp [vecSet, hys]⟩

theorem maskGet_vecSet_self : ∀ {xs ys : List Bool} {i : Nat} {v : Bool},
    vecSet xs i v = some ys → maskGet ys i = v := by
  intro xs
  induction xs with
  | nil => intro ys i v h; simp [vecSet] at h
  | cons b rest ih =>
    intro ys i v h
    cases i with
    | zero =>
      simp only [vecSet, Option.some.injEq] at h
      subst h; rfl
    | succ n =>
      simp only [vecSet] at h
      cases hr : vecSet rest n v with
      | none => rw [hr] at h; simp at h
      | some r =>
        rw [hr] at h
        simp only [Option.some.injEq] at h
        subst h
        simpa [maskGet] using ih hr

theorem maskGet_vecSet_other : ∀ {xs ys : List Bool} {i : Nat} {v : Bool},
    vecSet xs i v = some ys → ∀ j, j ≠ i → maskGet ys j = maskGet xs j := by
  intro xs
  induction xs with
  | nil => intro ys i v h; simp [vecSet] at h
  | cons b rest ih =>
    intro ys i v h j hj
    cases i with
    | zero =>
      simp only [vecSet, Option.some.injEq] at h
      subst h
      cases j with
      | zero => exact absurd rfl hj
      | succ m => rfl
    | succ n =>
      simp only [vecSet] at h
      cases hr : vecSet rest n v with
      | none => rw [hr] at h; simp at h
      | some r =>
        rw [hr] at h
        simp only [Option.some.injEq] at h
        subst h
        cases j with
        | zero => rfl
        | succ m => exact ih hr m (fun hm => hj (by omega))

theorem maskGet_vecSet_true_mono {xs ys : List Bool} {i : Nat}
    (h : vecSet xs i true = some ys) {j : Nat} (hj : maskGet xs j = true) :
    maskGet ys j = true := by
  by_cases hji : j = i
  · subst hji; exact maskGet_vecSet_self h
  · rw [maskGet_vecSet_other h j hji]; exact hj

theorem countHits_append (h : List ShotRecord) (r : ShotRecord) :
    countHits (h ++ [r]) = countHits h + (if r.is_hit then 1 else 0) := by
  induction h with
  | nil => simp [countHits]
  | cons a tl ih => simp [countHits, ih]; omega


/-! ## Success-shape lemmas for each entry point -/

theorem require_player_eq {s : Storage} {p1 p2 : Addr} (q : Addr)
    (h1 : s.player1 = some p1) (h2 : s.player2 = some p2) :
    require_player s q =
      if q ≠ p1 ∧ q ≠ p2 then fail GameError.NotAPlayer else Except.ok () := by
  unfold require_player
  rw [h1, h2]

theorem require_player_ok {s : Storage} {q : Addr}
    (h : require_player s q = Except.ok ()) :
    ∃ p1 p2, s.player1 = some p1 ∧ s.player2 = some p2 ∧ (q = p1 ∨ q = p2) := by
  unfold require_player at h
  split at h
  · simp at h
  next p1 h1 =>
    split at h
    · simp at h
    next p2 h2 =>
      split at h
      · simp at h
      next hq => exact ⟨p1, p2, h1, h2, by tauto⟩

theorem commit_fleet_ok {s : Storage} {q : Addr} {c : List Nat} {s' : Storage}
    (h : commit_fleet s q c = Except.ok s') :
    ∃ p1 p2 st,
      s.phase = some GamePhase.WaitingForCommits ∧
      s.player1 = some p1 ∧ s.player2 = some p2 ∧ (q = p1 ∨ q = p2) ∧
      psGet s.playerStates q = some st ∧ st.committed = false ∧
      ∃ p1s p2s,
        psGet (psSet s.playerStates q { st with commitment := c, committed := true }) p1
          = some p1s ∧
        psGet (psSet s.playerStates q { st with commitment := c, committed := true }) p2
          = some p2s ∧
        (((p1s.committed && p2s.committed) = true ∧
            s' = { s with
                     playerStates :=
                       psSet s.playerStates q { st with commitment := c, committed := true },
                     phase := some GamePhase.Player1Turn }) ∨
         ((p1s.committed && p2s.committed) = false ∧
            s' = { s with
                     playerStates :=
                       psSet s.playerStates q { st with commitment := c, committed := true } })) := by
  unfold commit_fleet at h
  split at h
  · simp at h
  next phase hph =>
    split at h
    · simp at h
    next hphase =>
      have hpw : phase = GamePhase.WaitingForCommits := not_not.mp hphase
      subst hpw
      split at h
      · exact Except.noConfusion h
      next rp hrp =>
        obtain ⟨⟩ := rp
        obtain ⟨p1, p2, h1, h2, hq⟩ := require_player_ok hrp
        split at h
        · simp at h
        next st hst =>
          split at h
          · simp at h
          next hcm =>
            simp only [] at h
            split at h
            · next e heq => rw [h1] at heq; simp at heq
            next p1v heq1 =>
              rw [h1] at heq1
              simp only [unwrapTx_some, Except.ok.injEq] at heq1
              subst heq1
              split at h
              · next e heq => rw [h2] at heq; simp at heq
              next p2v heq2 =>
                rw [h2] at heq2
                simp only [unwrapTx_some, Except.ok.injEq] at heq2
                subst heq2
                split at h
                · exact Except.noConfusion h
                next p1s heq3 =>
                  rw [unwrapTx_eq_ok] at heq3
                  split at h
                  · exact Except.noConfusion h
                  next p2s heq4 =>
                    rw [unwrapTx_eq_ok] at heq4
                    refine ⟨p1, p2, st, hph, h1, h2, hq, hst,
                      Bool.not_eq_true _ ▸ hcm, p1s, p2s, heq3, heq4, ?_⟩
                    split at h
                    · next hb =>
                      left
                      refine ⟨hb, ?_⟩
                      injection h with h'
                      exact h'.symm
                    · next hb =>
                      right
                      refine ⟨Bool.not_eq_true _ ▸ hb, ?_⟩
                      injection h with h'
                      exact h'.symm

theorem fire_shot_ok {s : Storage} {a : Addr} {x y : Nat} {s' : Storage}
    (h : fire_shot s a x y = Except.ok s') :
    ∃ ph p1 p2 dst,
      s.phase = some ph ∧ s.player1 = some p1 ∧ s.player2 = some p2 ∧
      ((ph = GamePhase.Player1Turn ∧ a = p1) ∨ (ph = GamePhase.Player2Turn ∧ a = p2)) ∧
      x < 10 ∧ y < 10 ∧
      psGet s.playerStates (if a = p1 then p2 else p1) = some dst ∧
      maskGet dst.shot_mask (x * 10 + y) = false ∧
      s' = { s with pendingShot := some ⟨a, (if a = p1 then p2 else p1), x, y⟩,
                    phase := some GamePhase.WaitingForProof } := by
  unfold fire_shot at h
  split at h
  · simp at h
  next phase hph =>
    split at h
    · next e heq1 => exact Except.noConfusion h
    next p1 heq1 =>
      rw [unwrapTx_eq_ok] at heq1
      split at h
      · next e heq2 => exact Except.noConfusion h
      next p2 heq2 =>
        rw [unwrapTx_eq_ok] at heq2
        split at h
        · exact Except.noConfusion h
        next u hturn =>
          obtain ⟨⟩ := u
          split at h
          · simp at h
          next hbound =>
            have hx : x < 10 := by omega
            have hy : y < 10 := by omega
            simp only [] at h
            split at h
            · exact Except.noConfusion h
            next dst hdst =>
              rw [unwrapTx_eq_ok] at hdst
              split at h
              · simp at h
              next hmask =>
                refine ⟨phase, p1, p2, dst, hph, heq1, heq2, ?_, hx, hy, hdst,
                  Bool.not_eq_true _ ▸ hmask, ?_⟩
                · split at hturn
                  · left
                    constructor
                    · rfl
                    · split at hturn
                      · simp at hturn
                      · next ha => exact not_not.mp ha
                  · right
                    constructor
                    · rfl
                    · split at hturn
                      · simp at hturn
                      · next ha => exact not_not.mp ha
                  · simp at hturn
                · injection h with h'
                  exact h'.symm

theorem claim_victory_ok {s : Storage} {q : Addr} {s' : Storage}
    (h : claim_victory s q = Except.ok s') :
    ∃ p1 p2 ph ost,
      s.player1 = some p1 ∧ s.player2 = some p2 ∧ (q = p1 ∨ q = p2) ∧
      s.phase = some ph ∧ ph ≠ GamePhase.Finished ∧
      psGet s.playerStates (if q = p1 then p2 else p1) = some ost ∧
      17 ≤ ost.hits_received ∧
      s.hubAddress.isSome = true ∧ s.sessionId.isSome = true ∧
      s' = { s with phase := some GamePhase.Finished, winner := some q } := by
  unfold claim_victory at h
  split at h
  · exact Except.noConfusion h
  next rp hrp =>
    obtain ⟨⟩ := rp
    obtain ⟨p1, p2, h1, h2, hq⟩ := require_player_ok hrp
    split at h
    · simp at h
    next ph hph =>
      split at h
      · simp at h
      next hfin =>
        split at h
        · next e heq => rw [h1] at heq; simp at heq
        next p1v heq1 =>
          rw [h1] at heq1
          simp only [unwrapTx_some, Except.ok.injEq] at heq1
          subst heq1
          split at h
          · next e heq => rw [h2] at heq; simp at heq
          next p2v heq2 =>
            rw [h2] at heq2
            simp only [unwrapTx_some, Except.ok.injEq] at heq2
            subst heq2
            simp only [] at h
            split at h
            · exact Except.noConfusion h
            next ost host =>
              rw [unwrapTx_eq_ok] at host
              split at h
              · simp at h
              next hhits =>
                split at h
                · exact Except.noConfusion h
                next bw sw hdw =>
                  unfold declare_winner at hdw
                  simp only [] at hdw
                  split at hdw
                  · exact Except.noConfusion hdw
                  next hub hhub =>
                    rw [fromOption_eq_ok] at hhub
                    split at hdw
                    · exact Except.noConfusion hdw
                    next sid hsid =>
                      rw [fromOption_eq_ok] at hsid
                      split at hdw
                      · exact Except.noConfusion hdw
                      next p1w hp1w =>
                        refine ⟨p1, p2, ph, ost, h1, h2, hq, hph, hfin, host,
                          by omega, by simp [hhub], by simp [hsid], ?_⟩
                        injection hdw with hdw'
                        obtain ⟨hb, hs⟩ := Prod.mk.injEq .. ▸ hdw'
                        injection h with h'
                        rw [← h', ← hs]

theorem submit_response_ok {s : Storage} {d : Addr} {r : Nat} {pf : List Nat}
    {b : Bool} {s' : Storage}
    (h : submit_response s d r pf = Except.ok (b, s')) :
    ∃ ps dst mask',
      s.phase = some GamePhase.WaitingForProof ∧
      s.pendingShot = some ps ∧ d = ps.defender ∧ r ≤ 1 ∧
      verify_zk_proof pf ps r = true ∧
      psGet s.playerStates d = some dst ∧
      vecSet dst.shot_mask (ps.x * 10 + ps.y) true = some mask' ∧
      ∃ dst' s1,
        dst' = { dst with
                   shot_mask := mask',
                   shot_history := dst.shot_history ++ [ShotRecord.mk ps.x ps.y (r == 1)],
                   hits_received :=
                     if (r == 1) then dst.hits_received + 1 else dst.hits_received } ∧
        s1 = { s with playerStates := psSet s.playerStates d dst', pendingShot := none } ∧
        ((17 ≤ dst'.hits_received ∧
            s.hubAddress.isSome = true ∧ s.sessionId.isSome = true ∧
            s.player1.isSome = true ∧ b = true ∧
            s' = { s1 with phase := some GamePhase.Finished, winner := some ps.attacker }) ∨
         (dst'.hits_received < 17 ∧
            ∃ p1, s.player1 = some p1 ∧ b = (r == 1) ∧
              s' = { s1 with
                       phase := some (if d = p1 then GamePhase.Player1Turn
                                      else GamePhase.Player2Turn) })) := by
  unfold submit_response at h
  split at h
  · simp at h
  next phase hph =>
    split at h
    · simp at h
    next hpw =>
      have hpw' : phase = GamePhase.WaitingForProof := not_not.mp hpw
      subst hpw'
      split at h
      · simp at h
      next ps hps =>
        split at h
        · simp at h
        next hdef =>
          have hdef' : d = ps.defender := not_not.mp hdef
          split at h
          · simp at h
          next hresp =>
            have hr : r ≤ 1 := by omega
            simp only [] at h
            split at h
            · simp at h
            next hverify =>
              have hv : verify_zk_proof pf ps r = true := by
                cases hvv : verify_zk_proof pf ps r with
                | false => exact absurd hvv hverify
                | true => rfl
              split at h
              · exact Except.noConfusion h
              next dst hdst =>
                rw [unwrapTx_eq_ok] at hdst
                split at h
                · exact Except.noConfusion h
                next mask' hmask =>
                  set hval := (if (r == 1) = true then dst.hits_received + 1
                               else dst.hits_received) with hhval
                  split at h
                  · next hwin =>
                    unfold declare_winner at h
                    simp only [] at h
                    split at h
                    · exact Except.noConfusion h
                    next hub hhub =>
                      rw [fromOption_eq_ok] at hhub
                      split at h
                      · exact Except.noConfusion h
                      next sid hsid =>
                        rw [fromOption_eq_ok] at hsid
                        split at h
                        · exact Except.noConfusion h
                        next p1w hp1w =>
                          rw [unwrapTx_eq_ok] at hp1w
                          injection h with h'
                          obtain ⟨hb, hs⟩ := Prod.mk.injEq .. ▸ h'
                          refine ⟨ps, dst, mask', hph, hps, hdef', hr, hv, hdst, hmask,
                            _, _, rfl, rfl, Or.inl ⟨hwin, by simp [hhub], by simp [hsid],
                              by simp [hp1w], hb.symm, ?_⟩⟩
                          rw [← hs]
                  · next hnowin =>
                    split at h
                    · exact Except.noConfusion h
                    next p1 hp1 =>
                      rw [unwrapTx_eq_ok] at hp1
                      split at h
                      · next hd =>
                        injection h with h'
                        obtain ⟨hb, hs⟩ := Prod.mk.injEq .. ▸ h'
                        refine ⟨ps, dst, mask', hph, hps, hdef', hr, hv, hdst, hmask,
                          _, _, rfl, rfl, Or.inr ⟨?_, p1, hp1, hb.symm, ?_⟩⟩
                        · show hval < 17
                          omega
                        · rw [← hs, if_pos hd]
                      · next hd =>
                        injection h with h'
                        obtain ⟨hb, hs⟩ := Prod.mk.injEq .. ▸ h'
                        refine ⟨ps, dst, mask', hph, hps, hdef', hr, hv, hdst, hmask,
                          _, _, rfl, rfl, Or.inr ⟨?_, p1, hp1, hb.symm, ?_⟩⟩
                        · show hval < 17
                          omega
                        · rw [← hs, if_neg hd]

/-! ## Step-level preservation lemmas -/

theorem step_const {s s' : Storage} (h : Step s s') :
    s'.hubAddress = s.hubAddress ∧ s'.sessionId = s.sessionId ∧
    s'.player1 = s.player1 ∧ s'.player2 = s.player2 := by
  cases h with
  | commit p c hok =>
    obtain ⟨p1, p2, st, _, _, _, _, _, _, p1s, p2s, _, _, hcase⟩ := commit_fleet_ok hok
    rcases hcase with ⟨_, rfl⟩ | ⟨_, rfl⟩ <;> exact ⟨rfl, rfl, rfl, rfl⟩
  | fire a x y hok =>
    obtain ⟨ph, p1, p2, dst, _, _, _, _, _, _, _, _, rfl⟩ := fire_shot_ok hok
    exact ⟨rfl, rfl, rfl, rfl⟩
  | submit d r pf b hok =>
    obtain ⟨ps, dst, mask', _, _, _, _, _, _, _, dst', s1, hdst', hs1, hcase⟩ :=
      submit_response_ok hok
    subst hdst'
    subst hs1
    rcases hcase with ⟨_, _, _, _, _, rfl⟩ | ⟨_, p1, _, _, rfl⟩ <;>
      exact ⟨rfl, rfl, rfl, rfl⟩
  | claim p hok =>
    obtain ⟨p1, p2, ph, ost, _, _, _, _, _, _, _, _, _, rfl⟩ := claim_victory_ok hok
    exact ⟨rfl, rfl, rfl, rfl⟩

theorem rtg_const {s s' : Storage} (h : Relation.ReflTransGen Step s s') :
    s'.hubAddress = s.hubAddress ∧ s'.sessionId = s.sessionId ∧
    s'.player1 = s.player1 ∧ s'.player2 = s.player2 := by
  induction h with
  | refl => exact ⟨rfl, rfl, rfl, rfl⟩
  | tail _ hstep ih =>
    obtain ⟨i1, i2, i3, i4⟩ := ih
    obtain ⟨j1, j2, j3, j4⟩ := step_const hstep
    exact ⟨j1.trans i1, j2.trans i2, j3.trans i3, j4.trans i4⟩

theorem step_records {s s' : Storage} (h : Step s s') {a : Addr} {st : PlayerState}
    (hget : psGet s.playerStates a = some st) :
    ∃ st', psGet s'.playerStates a = some st' ∧
      st.hits_received ≤ st'.hits_received ∧
      st'.hits_received ≤ st.hits_received + 1 ∧
      (∀ i, maskGet st.shot_mask i = true → maskGet st'.shot_mask i = true) ∧
      st'.shot_mask.length = st.shot_mask.length ∧
      ∃ tl, st'.shot_history = st.shot_history ++ tl ∧
        st'.hits_received = st.hits_received + countHits tl := by
  cases h with
  | commit q c hok =>
    obtain ⟨p1, p2, stq, _, _, _, _, hstq, _, p1s, p2s, _, _, hcase⟩ := commit_fleet_ok hok
    have hmap : ∀ t : Storage,
        t.playerStates = psSet s.playerStates q { stq with commitment := c, committed := true } →
        ∃ st', psGet t.playerStates a = some st' ∧
          st.hits_received ≤ st'.hits_received ∧
          st'.hits_received ≤ st.hits_received + 1 ∧
          (∀ i, maskGet st.shot_mask i = true → maskGet st'.shot_mask i = true) ∧
          st'.shot_mask.length = st.shot_mask.length ∧
          ∃ tl, st'.shot_history = st.shot_history ++ tl ∧
            st'.hits_received = st.hits_received + countHits tl := by
      intro t ht
      rw [ht, psGet_psSet]
      by_cases hqa : q = a
      · subst hqa
        rw [hstq] at hget
        injection hget with hget
        subst hget
        refine ⟨{ stq with commitment := c, committed := true }, by simp, ?_, ?_,
          fun i hi => hi, rfl, [], by simp, by simp [countHits]⟩
        · exact le_refl stq.hits_received
        · exact Nat.le_succ stq.hits_received
      · rw [if_neg hqa]
        exact ⟨st, hget, le_refl _, by omega, fun i hi => hi, rfl,
          [], by simp, by simp [countHits]⟩
    rcases hcase with ⟨_, rfl⟩ | ⟨_, rfl⟩ <;> exact hmap _ rfl
  | fire a2 x y hok =>
    obtain ⟨ph, p1, p2, dst, _, _, _, _, _, _, _, _, rfl⟩ := fire_shot_ok hok
    exact ⟨st, hget, le_refl _, by omega, fun i hi => hi, rfl,
      [], by simp, by simp [countHits]⟩
  | submit d r pf b hok =>
    obtain ⟨ps, dst, mask', _, _, _, _, _, hdst, hmask, dst', s1, hdst', hs1, hcase⟩ :=
      submit_response_ok hok
    have hmap : ∀ t : Storage,
        t.playerStates = psSet s.playerStates d dst' →
        ∃ st', psGet t.playerStates a = some st' ∧
          st.hits_received ≤ st'.hits_received ∧
          st'.hits_received ≤ st.hits_received + 1 ∧
          (∀ i, maskGet st.shot_mask i = true → maskGet st'.shot_mask i = true) ∧
          st'.shot_mask.length = st.shot_mask.length ∧
          ∃ tl, st'.shot_history = st.shot_history ++ tl ∧
            st'.hits_received = st.hits_received + countHits tl := by
      intro t ht
      rw [ht, psGet_psSet]
      by_cases hda : d = a
      · subst hda
        rw [hdst] at hget
        injection hget with hget
        subst hget
        refine ⟨dst', by simp, ?_, ?_, ?_, ?_, [ShotRecord.mk ps.x ps.y (r == 1)],
          by rw [hdst'], ?_⟩
        · rw [hdst']
          by_cases h1 : (r == 1) = true <;> simp [h1]
        · rw [hdst']
          by_cases h1 : (r == 1) = true <;> simp [h1]
        · intro i hi
          rw [hdst']
          exact maskGet_vecSet_true_mono hmask hi
        · rw [hdst']
          exact vecSet_length hmask
        · rw [hdst']
          by_cases h1 : (r == 1) = true <;> simp [countHits, h1]
      · rw [if_neg hda]
        exact ⟨st, hget, le_refl _, by omega, fun i hi => hi, rfl,
          [], by simp, by simp [countHits]⟩
    have hps1 : s1.playerStates = psSet s.playerStates d dst' := by rw [hs1]
    rcases hcase with ⟨_, _, _, _, _, rfl⟩ | ⟨_, p1, _, _, rfl⟩ <;> exact hmap _ hps1
  | claim q hok =>
    obtain ⟨p1, p2, ph, ost, _, _, _, _, _, _, _, _, _, rfl⟩ := claim_victory_ok hok
    exact ⟨st, hget, le_refl _, by omega, fun i hi => hi, rfl,
      [], by simp, by simp [countHits]⟩

theorem rtg_records {s s' : Storage} (h : Relation.ReflTransGen Step s s') {a : Addr}
    {st : PlayerState} (hget : psGet s.playerStates a = some st) :
    ∃ st', psGet s'.playerStates a = some st' ∧
      st.hits_received ≤ st'.hits_received ∧
      (∀ i, maskGet st.shot_mask i = true → maskGet st'.shot_mask i = true) ∧
      ∃ tl, st'.shot_history = st.shot_history ++ tl := by
  induction h with
  | refl => exact ⟨st, hget, le_refl _, fun i hi => hi, [], by simp⟩
  | tail _ hstep ih =>
    obtain ⟨stm, hgetm, hle, hmask, tl, htl⟩ := ih
    obtain ⟨st', hget', hle', _, hmask', _, tl', htl', _⟩ := step_records hstep hgetm
    exact ⟨st', hget', le_trans hle hle', fun i hi => hmask' i (hmask i hi),
      tl ++ tl', by rw [htl', htl, List.append_assoc]⟩

/-! ## The reachability invariant -/

theorem psGet_double_empty {p1 p2 a : Addr} {st : PlayerState}
    (h : psGet (psSet (psSet [] p1 emptyPS) p2 emptyPS) a = some st) : st = emptyPS := by
  rw [psGet_psSet] at h
  by_cases h2 : p2 = a
  · rw [if_pos h2] at h; injection h with h; exact h.symm
  · rw [if_neg h2, psGet_psSet] at h
    by_cases h1 : p1 = a
    · rw [if_pos h1] at h; injection h with h; exact h.symm
    · rw [if_neg h1] at h; simp [psGet] at h

theorem inv_init {s : Storage} (h : InitState s) : Inv s := by
  obtain ⟨hub, sid, p1, p2, hinit⟩ := h
  unfold initGame at hinit
  simp only [emptyStorage] at hinit
  injection hinit with hinit
  subst hinit
  refine
    { hub := by simp
      sid := by simp
      phase_some := by simp
      players := ⟨p1, p2, rfl, rfl, ?_, ?_⟩
      pend_iff := by simp
      pend_ok := fun ps hps => Option.noConfusion hps
      st_ok := ?_
      hits_le := ?_
      hits_fin := ?_ }
  · rw [psGet_psSet]
    by_cases h2 : p2 = p1 <;> simp [h2, psGet_psSet]
  · simp [psGet_psSet]
  · intro a st hget
    rw [psGet_double_empty hget]
    simp [emptyPS, countHits]
  · intro a st hget
    rw [psGet_double_empty hget]
    simp [emptyPS]
  · intro a st hget hge
    rw [psGet_double_empty hget] at hge
    simp [emptyPS] at hge

theorem claim_not_ok_of_inv {s : Storage} (hinv : Inv s) {q : Addr} {s' : Storage} :
    claim_victory s q ≠ Except.ok s' := by
  intro h
  obtain ⟨p1, p2, ph, ost, h1, h2, hq, hph, hfin, host, hhits, _, _, _⟩ := claim_victory_ok h
  have hfin' := hinv.hits_fin _ _ host hhits
  rw [hph] at hfin'
  injection hfin' with hfin'
  exact hfin hfin'

theorem inv_step {s s' : Storage} (hinv : Inv s) (h : Step s s') : Inv s' := by
  cases h with
  | commit q c hok =>
    obtain ⟨p1, p2, st, hph, h1, h2, hq, hst, hcm, p1s, p2s, hg1, hg2, hcase⟩ :=
      commit_fleet_ok hok
    have hpend : s.pendingShot = none := by
      cases hpd : s.pendingShot with
      | none => rfl
      | some ps =>
        have hwp := hinv.pend_iff.mp (by simp [hpd])
        rw [hph] at hwp
        injection hwp with hwp
        simp at hwp
    have hlt : ∀ a st2, psGet s.playerStates a = some st2 → st2.hits_received < 17 := by
      intro a st2 hget
      by_contra hge
      have hf := hinv.hits_fin a st2 hget (by omega)
      rw [hph] at hf
      injection hf with hf
      simp at hf
    have hstok : ∀ a st3,
        psGet (psSet s.playerStates q { st with commitment := c, committed := true }) a
          = some st3 →
        st3.shot_mask.length = 100 ∧ st3.hits_received = countHits st3.shot_history ∧
        st3.hits_received < 17 := by
      intro a st3 hget
      rw [psGet_psSet] at hget
      by_cases hqa : q = a
      · rw [if_pos hqa] at hget
        injection hget with hget
        subst hget
        obtain ⟨hl, hc⟩ := hinv.st_ok q st hst
        exact ⟨hl, hc, hlt q st hst⟩
      · rw [if_neg hqa] at hget
        obtain ⟨hl, hc⟩ := hinv.st_ok a st3 hget
        exact ⟨hl, hc, hlt a st3 hget⟩
    have hmem1 : (psGet (psSet s.playerStates q
        { st with commitment := c, committed := true }) p1).isSome = true := by
      simp [hg1]
    have hmem2 : (psGet (psSet s.playerStates q
        { st with commitment := c, committed := true }) p2).isSome = true := by
      simp [hg2]
    rcases hcase with ⟨hboth, rfl⟩ | ⟨hone, rfl⟩
    · exact
        { hub := hinv.hub
          sid := hinv.sid
          phase_some := by simp
          players := ⟨p1, p2, h1, h2, hmem1, hmem2⟩
          pend_iff := by rw [hpend]; simp
          pend_ok := by intro ps hps; rw [hpend] at hps; exact Option.noConfusion hps
          st_ok := fun a st3 hget => ⟨(hstok a st3 hget).1, (hstok a st3 hget).2.1⟩
          hits_le := fun a st3 hget => by have := (hstok a st3 hget).2.2; omega
          hits_fin := fun a st3 hget hge => by
            have := (hstok a st3 hget).2.2
            omega }
    · exact
        { hub := hinv.hub
          sid := hinv.sid
          phase_some := by rw [hph]; rfl
          players := ⟨p1, p2, h1, h2, hmem1, hmem2⟩
          pend_iff := by rw [hpend, hph]; simp
          pend_ok := by intro ps hps; rw [hpend] at hps; exact Option.noConfusion hps
          st_ok := fun a st3 hget => ⟨(hstok a st3 hget).1, (hstok a st3 hget).2.1⟩
          hits_le := fun a st3 hget => by have := (hstok a st3 hget).2.2; omega
          hits_fin := fun a st3 hget hge => by
            have := (hstok a st3 hget).2.2
            omega }
  | fire a x y hok =>
    obtain ⟨ph, p1, p2, dst, hph, h1, h2, hturn, hx, hy, hdst, hmaskf, rfl⟩ :=
      fire_shot_ok hok
    have hphnf : ph ≠ GamePhase.Finished := by
      rcases hturn with ⟨rfl, _⟩ | ⟨rfl, _⟩ <;> simp
    have hlt : ∀ a2 st2, psGet s.playerStates a2 = some st2 → st2.hits_received < 17 := by
      intro a2 st2 hget
      by_contra hge
      have hf := hinv.hits_fin a2 st2 hget (by omega)
      rw [hph] at hf
      injection hf with hf
      exact hphnf hf
    exact
      { hub := hinv.hub
        sid := hinv.sid
        phase_some := by simp
        players := hinv.players
        pend_iff := by simp
        pend_ok := by
          intro ps hps
          injection hps with hps
          subst hps
          refine ⟨hx, hy, p1, p2, h1, h2, ?_⟩
          by_cases hap1 : a = p1
          · rw [if_pos hap1]
            exact Or.inl ⟨hap1, rfl⟩
          · rw [if_neg hap1]
            rcases hturn with ⟨_, hap⟩ | ⟨_, hap⟩
            · exact absurd hap hap1
            · exact Or.inr ⟨hap, rfl⟩
        st_ok := hinv.st_ok
        hits_le := hinv.hits_le
        hits_fin := fun a2 st2 hget hge => by
          have := hlt a2 st2 hget
          omega }
  | submit d r pf b hok =>
    obtain ⟨ps, dst, mask', hph, hps, hdefeq, hr, hv, hdst, hmask, dst', s1, hdst', hs1, hcase⟩ :=
      submit_response_ok hok
    subst hdst'
    subst hs1
    obtain ⟨hpx, hpy, pp1, pp2, hp1, hp2, hpair⟩ := hinv.pend_ok ps hps
    obtain ⟨hmlen, hmcount⟩ := hinv.st_ok _ _ hdst
    have hdlt : dst.hits_received < 17 := by
      by_contra hge
      have hf := hinv.hits_fin _ _ hdst (by omega)
      rw [hph] at hf
      injection hf with hf
      simp at hf
    have hlt : ∀ a2 st2, psGet s.playerStates a2 = some st2 → st2.hits_received < 17 := by
      intro a2 st2 hget
      by_contra hge
      have hf := hinv.hits_fin a2 st2 hget (by omega)
      rw [hph] at hf
      injection hf with hf
      simp at hf
    have hstok : ∀ a2 st3,
        psGet (psSet s.playerStates d
          { dst with
              shot_mask := mask',
              shot_history := dst.shot_history ++ [ShotRecord.mk ps.x ps.y (r == 1)],
              hits_received :=
                if (r == 1) then dst.hits_received + 1 else dst.hits_received }) a2
          = some st3 →
        st3.shot_mask.length = 100 ∧ st3.hits_received = countHits st3.shot_history ∧
        st3.hits_received ≤ 17 := by
      intro a2 st3 hget
      rw [psGet_psSet] at hget
      by_cases hda : d = a2
      · rw [if_pos hda] at hget
        injection hget with hget
        subst hget
        refine ⟨?_, ?_, ?_⟩
        · simpa [vecSet_length hmask] using hmlen
        · show (if (r == 1) then dst.hits_received + 1 else dst.hits_received)
            = countHits (dst.shot_history ++ [ShotRecord.mk ps.x ps.y (r == 1)])
          rw [countHits_append, ← hmcount]
          by_cases h1 : (r == 1) = true <;> simp [h1]
        · show (if (r == 1) then dst.hits_received + 1 else dst.hits_received) ≤ 17
          by_cases h1 : (r == 1) = true <;> simp [h1] <;> omega
      · rw [if_neg hda] at hget
        obtain ⟨hl, hc⟩ := hinv.st_ok a2 st3 hget
        exact ⟨hl, hc, hinv.hits_le a2 st3 hget⟩
    have hmem : ∀ p : Addr, (psGet s.playerStates p).isSome = true →
        (psGet (psSet s.playerStates d
          { dst with
              shot_mask := mask',
              shot_history := dst.shot_history ++ [ShotRecord.mk ps.x ps.y (r == 1)],
              hits_received :=
                if (r == 1) then dst.hits_received + 1 else dst.hits_received }) p).isSome
          = true := by
      intro p hp
      rw [psGet_psSet]
      by_cases hdp : d = p <;> simp [hdp, hp]
    obtain ⟨q1, q2, hq1, hq2, hm1, hm2⟩ := hinv.players
    rcases hcase with ⟨hwin, hhub, hsid, hp1s, hb, rfl⟩ | ⟨hnw, p1, hp1v, hb, rfl⟩
    · exact
        { hub := hinv.hub
          sid := hinv.sid
          phase_some := by simp
          players := ⟨q1, q2, hq1, hq2, hmem q1 hm1, hmem q2 hm2⟩
          pend_iff := by simp
          pend_ok := fun ps2 hps2 => Option.noConfusion hps2
          st_ok := fun a2 st3 hget => ⟨(hstok a2 st3 hget).1, (hstok a2 st3 hget).2.1⟩
          hits_le := fun a2 st3 hget => (hstok a2 st3 hget).2.2
          hits_fin := fun a2 st3 hget hge => rfl }
    · refine
        { hub := hinv.hub
          sid := hinv.sid
          phase_some := by simp
          players := ⟨q1, q2, hq1, hq2, hmem q1 hm1, hmem q2 hm2⟩
          pend_iff := ?_
          pend_ok := fun ps2 hps2 => Option.noConfusion hps2
          st_ok := fun a2 st3 hget => ⟨(hstok a2 st3 hget).1, (hstok a2 st3 hget).2.1⟩
          hits_le := fun a2 st3 hget => (hstok a2 st3 hget).2.2
          hits_fin := ?_ }
      · by_cases hd : d = p1 <;> simp [hd]
      · intro a2 st3 hget hge
        exfalso
        have hcur := hstok a2 st3 hget
        rw [psGet_psSet] at hget
        by_cases hda : d = a2
        · rw [if_pos hda] at hget
          injection hget with hget
          have hh : st3.hits_received < 17 := by rw [← hget]; exact hnw
          omega
        · rw [if_neg hda] at hget
          have := hlt a2 st3 hget
          omega
  | claim q hok => exact absurd hok (claim_not_ok_of_inv hinv)

theorem inv_reachable {s : Storage} (h : Reachable s) : Inv s := by
  obtain ⟨s0, h0, hrtg⟩ := h
  induction hrtg with
  | refl => exact inv_init h0
  | tail _ hstep ih => exact inv_step ih hstep

/-! ## Reachability of the demonstration states -/

theorem init_demo0 : InitState demo0 := ⟨0, 0, 1, 2, rfl⟩

theorem step_d01 : Step demo0 demo1 := Step.commit 1 (List.replicate 32 1) rfl

theorem step_d12 : Step demo1 demo2 := Step.commit 2 (List.replicate 32 2) rfl

theorem step_d23 : Step demo2 demo3 := Step.fire 1 3 4 rfl

theorem step_d34 : Step demo3 demo4 := Step.submit 2 1 (List.replicate 256 1) true rfl

theorem step_d45 : Step demo4 demo5 := Step.fire 2 5 5 rfl

theorem step_d56 : Step demo5 demo6 := Step.submit 1 0 (List.replicate 256 1) false rfl

theorem reach_demo0 : Reachable demo0 := ⟨demo0, init_demo0, Relation.ReflTransGen.refl⟩

theorem reach_demo1 : Reachable demo1 :=
  ⟨demo0, init_demo0, Relation.ReflTransGen.single step_d01⟩

theorem reach_demo2 : Reachable demo2 :=
  ⟨demo0, init_demo0, (Relation.ReflTransGen.single step_d01).tail step_d12⟩

theorem reach_demo3 : Reachable demo3 :=
  ⟨demo0, init_demo0,
    ((Relation.ReflTransGen.single step_d01).tail step_d12).tail step_d23⟩

theorem reach_demo4 : Reachable demo4 :=
  ⟨demo0, init_demo0,
    (((Relation.ReflTransGen.single step_d01).tail step_d12).tail step_d23).tail step_d34⟩

/-! ## Claim C1 -/

/-- C1 counterexample: the invariant "PendingShot exists iff phase is
`WaitingForProof`, after every operation including `initialize`" is false.
`demo3` is reachable (phase `WaitingForProof`, shot pending), and running
`initialize` on it — one of the listed operations, admitted by the code
since it has no once-only guard — succeeds and yields `demoReinit`, where
a `PendingShot` is present (`initialize` never clears that key) while the
phase is `WaitingForCommits`, not `WaitingForProof`. -/
theorem C1_counterexample :
    Reachable demo3 ∧
    initGame demo3 9 9 1 2 = Except.ok demoReinit ∧
    ¬(demoReinit.pendingShot.isSome = true ↔
        demoReinit.phase = some GamePhase.WaitingForProof) :=
  ⟨reach_demo3, rfl, by decide⟩

/-- C1 (amended): within a single match — after its one initialisation and
after any sequence of the game operations `commit_fleet`, `fire_shot`,
`submit_response`, `claim_victory` (a failed operation reverts and leaves
the state unchanged) — a `PendingShot` record exists if and only if the
phase is `WaitingForProof`.  Re-initialisation is excluded: `initialize`
on an in-flight match resets the phase without clearing a stale pending
shot, which breaks the biconditional. -/
theorem C1_pending_iff_waiting_for_proof (s : Storage) (h : Reachable s) :
    s.pendingShot.isSome = true ↔ s.phase = some GamePhase.WaitingForProof :=
  (inv_reachable h).pend_iff

/-- C1 witness: the invariant instantiated at the concrete reachable state
`demo3` (phase `WaitingForProof`, pending shot present). -/
theorem C1_pending_iff_waiting_for_proof_witness :
    Reachable demo3 ∧
      (demo3.pendingShot.isSome = true ↔ demo3.phase = some GamePhase.WaitingForProof) :=
  ⟨reach_demo3, C1_pending_iff_waiting_for_proof demo3 reach_demo3⟩

/-! ## Claim C4 -/

/-- C4 counterexample: calling `initialize` on an already-initialised,
in-flight match (`demo3`, phase `WaitingForProof`) does not fail — it
succeeds and resets the match to `WaitingForCommits`, changing the stored
state (and even leaving the stale pending shot behind).  So `initialize`
is not restricted to one call per match. -/
theorem C4_counterexample :
    initGame demo3 9 9 1 2 = Except.ok demoReinit ∧
    demo3.phase = some GamePhase.WaitingForProof ∧
    demoReinit.phase = some GamePhase.WaitingForCommits ∧
    demoReinit ≠ demo3 ∧
    demoReinit.pendingShot = some (PendingShot.mk 1 2 3 4) :=
  ⟨rfl, rfl, rfl, by decide, rfl⟩

/-- C4 amended: `initialize` performs no prior-state check.  On any storage
state (initialised or not) it succeeds, overwriting the configuration and
both player records with a fresh `WaitingForCommits` match; the
`PendingShot` and `Winner` keys are not written, so stale values survive. -/
theorem C4_reinit_overwrites (s : Storage) (hub : Addr) (sid : Nat) (p1 p2 : Addr) :
    ∃ s', initGame s hub sid p1 p2 = Except.ok s' ∧
      s'.phase = some GamePhase.WaitingForCommits ∧
      s'.player1 = some p1 ∧ s'.player2 = some p2 ∧
      s'.hubAddress = some hub ∧ s'.sessionId = some sid ∧
      psGet s'.playerStates p1 = some emptyPS ∧
      psGet s'.playerStates p2 = some emptyPS ∧
      s'.pendingShot = s.pendingShot ∧ s'.winner = s.winner := by
  refine ⟨_, rfl, rfl, rfl, rfl, rfl, rfl, ?_, ?_, rfl, rfl⟩
  · rw [psGet_psSet]
    by_cases h : p2 = p1 <;> simp [h, psGet_psSet]
  · rw [psGet_psSet_self]

/-! ## Claim C10 -/

/-- C10 counterexample: on an uninitialised match, `get_pending_shot` and
`get_winner` do not fail with `NotInitialized` — their source signatures
return `Option`, not `Result`, so they yield `None` (contrast `get_phase`,
which does fail). -/
theorem C10_counterexample :
    get_pending_shot emptyStorage = none ∧
    get_winner emptyStorage = none ∧
    get_phase emptyStorage = fail GameError.NotInitialized :=
  ⟨rfl, rfl, rfl⟩

/-- C10 amended: the five `Result`-returning queries (`get_phase`,
`get_players`, `get_commitment_status`, `get_hits_received`,
`get_shot_history`) fail with `NotInitialized` when the state they read is
absent; `get_pending_shot` and `get_winner` instead return `None` (no
error) when their key is absent, including on an uninitialised match. -/
theorem C10_query_absent (s : Storage) (p : Addr) :
    (s.phase = none → get_phase s = fail GameError.NotInitialized) ∧
    (s.player1 = none → get_players s = fail GameError.NotInitialized) ∧
    (∀ p1, s.player1 = some p1 → s.player2 = none →
      get_players s = fail GameError.NotInitialized) ∧
    (psGet s.playerStates p = none →
      get_commitment_status s p = fail GameError.NotInitialized) ∧
    (psGet s.playerStates p = none →
      get_hits_received s p = fail GameError.NotInitialized) ∧
    (psGet s.playerStates p = none →
      get_shot_history s p = fail GameError.NotInitialized) ∧
    (s.pendingShot = none → get_pending_shot s = none) ∧
    (s.winner = none → get_winner s = none) := by
  refine ⟨?_, ?_, ?_, ?_, ?_, ?_, ?_, ?_⟩
  · intro h; unfold get_phase; rw [h]; rfl
  · intro h; unfold get_players; rw [h]; rfl
  · intro p1 h1 h2; unfold get_players; rw [h1, h2]; rfl
  · intro h; unfold get_commitment_status; rw [h]; rfl
  · intro h; unfold get_hits_received; rw [h]; rfl
  · intro h; unfold get_shot_history; rw [h]; rfl
  · intro h; unfold get_pending_shot; rw [h]
  · intro h; unfold get_winner; rw [h]

/-- C10 amended witness: the amended behaviour at the concrete
uninitialised state. -/
theorem C10_query_absent_witness :
    get_phase emptyStorage = fail GameError.NotInitialized ∧
    get_players emptyStorage = fail GameError.NotInitialized ∧
    get_commitment_status emptyStorage 0 = fail GameError.NotInitialized ∧
    get_hits_received emptyStorage 0 = fail GameError.NotInitialized ∧
    get_shot_history emptyStorage 0 = fail GameError.NotInitialized ∧
    get_pending_shot emptyStorage = none ∧
    get_winner emptyStorage = none :=
  ⟨(C10_query_absent emptyStorage 0).1 rfl,
   (C10_query_absent emptyStorage 0).2.1 rfl,
   (C10_query_absent emptyStorage 0).2.2.2.1 rfl,
   (C10_query_absent emptyStorage 0).2.2.2.2.1 rfl,
   (C10_query_absent emptyStorage 0).2.2.2.2.2.1 rfl,
   (C10_query_absent emptyStorage 0).2.2.2.2.2.2.1 rfl,
   (C10_query_absent emptyStorage 0).2.2.2.2.2.2.2 rfl⟩

/-! ## Claim C8 -/

/-- C8: on every successful `commit_fleet`, the caller's record is marked
committed; if both players are then committed the phase advances to
`Player1Turn` (player 1 always moves first), and if only one is committed
the phase remains `WaitingForCommits` with the committer's status `true`
and the other player's status `false`. -/
theorem C8_commit_phase_transition (s s' : Storage) (p1 p2 q : Addr) (c : List Nat)
    (st1' st2' : PlayerState)
    (hp1 : s.player1 = some p1) (hp2 : s.player2 = some p2) (hne : p1 ≠ p2)
    (hok : commit_fleet s q c = Except.ok s')
    (hg1 : psGet s'.playerStates p1 = some st1')
    (hg2 : psGet s'.playerStates p2 = some st2') :
    (∃ stq, psGet s'.playerStates q = some stq ∧ stq.committed = true) ∧
    (st1'.committed = true ∧ st2'.committed = true →
      s'.phase = some GamePhase.Player1Turn) ∧
    (¬(st1'.committed = true ∧ st2'.committed = true) →
      s'.phase = some GamePhase.WaitingForCommits ∧
      ((q = p1 ∧ st1'.committed = true ∧ st2'.committed = false) ∨
       (q = p2 ∧ st2'.committed = true ∧ st1'.committed = false))) := by
  obtain ⟨p1x, p2x, st, hph, h1x, h2x, hqx, hst, hcm, p1s, p2s, hg1x, hg2x, hcase⟩ :=
    commit_fleet_ok hok
  rw [hp1] at h1x
  injection h1x with h1x
  subst h1x
  rw [hp2] at h2x
  injection h2x with h2x
  subst h2x
  rcases hcase with ⟨hboth, rfl⟩ | ⟨hone, rfl⟩
  · simp only [] at hg1 hg2
    rw [hg1x] at hg1
    injection hg1 with hg1
    rw [hg2x] at hg2
    injection hg2 with hg2
    subst hg1
    subst hg2
    rw [Bool.and_eq_true] at hboth
    refine ⟨⟨_, psGet_psSet_self .., rfl⟩, fun _ => rfl, fun hnot => absurd hboth hnot⟩
  · simp only [] at hg1 hg2
    rw [hg1x] at hg1
    injection hg1 with hg1
    rw [hg2x] at hg2
    injection hg2 with hg2
    subst hg1
    subst hg2
    refine ⟨⟨_, psGet_psSet_self .., rfl⟩, fun hboth' => ?_, fun _ => ⟨hph, ?_⟩⟩
    · exfalso
      rw [hboth'.1, hboth'.2] at hone
      simp at hone
    · rcases hqx with rfl | rfl
      · left
        have hp1s : p1s = { st with commitment := c, committed := true } := by
          have := hg1x
          rw [psGet_psSet_self] at this
          injection this with th
          exact th.symm
        have hp2s : psGet s.playerStates p2 = some p2s := by
          have := hg2x
          rwa [psGet_psSet_ne _ _ _ _ hne] at this
        refine ⟨rfl, by rw [hp1s], ?_⟩
        have : p1s.committed = true := by rw [hp1s]
        rw [this] at hone
        simpa using hone
      · right
        have hp2s : p2s = { st with commitment := c, committed := true } := by
          have := hg2x
          rw [psGet_psSet_self] at this
          injection this with th
          exact th.symm
        have hne' : q ≠ p1 := fun hc => hne (hc.symm ▸ rfl)
        refine ⟨rfl, by rw [hp2s], ?_⟩
        have : p2s.committed = true := by rw [hp2s]
        rw [this] at hone
        simpa using hone

/-- C8 witness: after the first commit (`demo0 → demo1`) the phase is
still `WaitingForCommits` with player 1 committed and player 2 not. -/
theorem C8_commit_phase_transition_witness :
    (∃ stq, psGet demo1.playerStates 1 = some stq ∧ stq.committed = true) ∧
    (demo1p1.committed = true ∧ emptyPS.committed = true →
      demo1.phase = some GamePhase.Player1Turn) ∧
    (¬(demo1p1.committed = true ∧ emptyPS.committed = true) →
      demo1.phase = some GamePhase.WaitingForCommits ∧
      ((1 = 1 ∧ demo1p1.committed = true ∧ emptyPS.committed = false) ∨
       (1 = 2 ∧ emptyPS.committed = true ∧ demo1p1.committed = false))) :=
  C8_commit_phase_transition demo0 demo1 1 2 1 (List.replicate 32 1) demo1p1 emptyPS
    rfl rfl (by decide) rfl rfl rfl

/-! ## Claim C9 -/

/-- C9: for a player `q` of the match, `claim_victory` fails with
`GameOver` whenever the phase is already `Finished`; fails with
`InvalidPhase` whenever the opponent's hit counter is below 17 (and the
game is not finished); succeeds — declaring the caller the winner and
finishing the game — when the opponent's counter is at least 17; and any
success implies the counter was at least 17 and the caller was recorded
as winner. -/
theorem C9_claim_victory_guards (s : Storage) (q p1 p2 : Addr) (ost : PlayerState)
    (hp1 : s.player1 = some p1) (hp2 : s.player2 = some p2)
    (hq : q = p1 ∨ q = p2)
    (host : psGet s.playerStates (if q = p1 then p2 else p1) = some ost) :
    (s.phase = some GamePhase.Finished → claim_victory s q = fail GameError.GameOver) ∧
    (∀ ph, s.phase = some ph → ph ≠ GamePhase.Finished → ost.hits_received < 17 →
      claim_victory s q = fail GameError.InvalidPhase) ∧
    (∀ ph, s.phase = some ph → ph ≠ GamePhase.Finished → 17 ≤ ost.hits_received →
      s.hubAddress.isSome = true → s.sessionId.isSome = true →
      claim_victory s q =
        Except.ok { s with phase := some GamePhase.Finished, winner := some q }) ∧
    (∀ s', claim_victory s q = Except.ok s' →
      17 ≤ ost.hits_received ∧ s'.winner = some q ∧
      s'.phase = some GamePhase.Finished) := by
  have hrp : require_player s q = Except.ok () := by
    rw [require_player_eq q hp1 hp2]
    rcases hq with rfl | rfl <;> simp
  refine ⟨?_, ?_, ?_, ?_⟩
  · intro hfin
    unfold claim_victory
    simp [hrp, hfin]
  · intro ph hph hnf hlts
    unfold claim_victory
    simp [hrp, hph, hnf, hp1, hp2, host, hlts]
  · intro ph hph hnf hge hhub hsid
    obtain ⟨hub, hhubv⟩ := Option.isSome_iff_exists.mp hhub
    obtain ⟨sid, hsidv⟩ := Option.isSome_iff_exists.mp hsid
    have hnl : ¬ ost.hits_received < 17 := by omega
    unfold claim_victory declare_winner
    simp [hrp, hph, hnf, hp1, hp2, host, hnl, hhubv, hsidv, fromOption]
  · intro s' hok
    obtain ⟨p1x, p2x, ph, ostx, h1x, h2x, hqx, hph, hfin, hostx, hhits, _, _, rfl⟩ :=
      claim_victory_ok hok
    rw [hp1] at h1x
    injection h1x with h1x
    subst h1x
    rw [hp2] at h2x
    injection h2x with h2x
    subst h2x
    rw [host] at hostx
    injection hostx with hostx
    subst hostx
    exact ⟨hhits, rfl, rfl⟩

/-- C9 witness: at the concrete state `claimStorage` (phase `Player1Turn`,
player 2 with 17 hits received), the guards instantiated for caller 1. -/
theorem C9_claim_victory_guards_witness :
    (claimStorage.phase = some GamePhase.Finished →
      claim_victory claimStorage 1 = fail GameError.GameOver) ∧
    (∀ ph, claimStorage.phase = some ph → ph ≠ GamePhase.Finished →
      ({ emptyPS with hits_received := 17 } : PlayerState).hits_received < 17 →
      claim_victory claimStorage 1 = fail GameError.InvalidPhase) ∧
    (∀ ph, claimStorage.phase = some ph → ph ≠ GamePhase.Finished →
      17 ≤ ({ emptyPS with hits_received := 17 } : PlayerState).hits_received →
      claimStorage.hubAddress.isSome = true → claimStorage.sessionId.isSome = true →
      claim_victory claimStorage 1 =
        Except.ok { claimStorage with phase := some GamePhase.Finished, winner := some 1 }) ∧
    (∀ s', claim_victory claimStorage 1 = Except.ok s' →
      17 ≤ ({ emptyPS with hits_received := 17 } : PlayerState).hits_received ∧
      s'.winner = some 1 ∧ s'.phase = some GamePhase.Finished) :=
  C9_claim_victory_guards claimStorage 1 1 2 { emptyPS with hits_received := 17 }
    rfl rfl (Or.inl rfl) rfl

/-! ## Claim C2 -/

theorem isOkTx_iff {α : Type} {t : Tx α} : isOkTx t = true ↔ ∃ a, t = Except.ok a := by
  cases t <;> simp [isOkTx]

theorem submit_response_zero_proof {s : Storage} {ps : PendingShot} {r : Nat}
    (hph : s.phase = some GamePhase.WaitingForProof)
    (hps : s.pendingShot = some ps)
    (hr : r ≤ 1) :
    submit_response s ps.defender r (List.replicate 256 0) = fail GameError.ProofInvalid := by
  have hng : ¬ r > 1 := by omega
  have hv : verify_zk_proof (List.replicate 256 0) ps r = false :=
    decide_eq_false (fun h => h rfl)
  generalize hgen : (List.replicate 256 0 : List Nat) = zs at hv ⊢
  unfold submit_response
  simp [hph, hps, hng, hv]

theorem submit_response_verified_ok {s : Storage} {ps : PendingShot} {r : Nat}
    {pf : List Nat} {st : PlayerState}
    (hph : s.phase = some GamePhase.WaitingForProof)
    (hps : s.pendingShot = some ps)
    (hr : r ≤ 1)
    (hv : verify_zk_proof pf ps r = true)
    (hst : psGet s.playerStates ps.defender = some st)
    (hidx : ps.x * 10 + ps.y < st.shot_mask.length)
    (hhub : s.hubAddress.isSome = true)
    (hsid : s.sessionId.isSome = true)
    (hp1 : s.player1.isSome = true) :
    ∃ res, submit_response s ps.defender r pf = Except.ok res := by
  obtain ⟨hub, hhubv⟩ := Option.isSome_iff_exists.mp hhub
  obtain ⟨sid, hsidv⟩ := Option.isSome_iff_exists.mp hsid
  obtain ⟨p1, hp1v⟩ := Option.isSome_iff_exists.mp hp1
  obtain ⟨mask', hmask⟩ := vecSet_isSome true hidx
  have hng : ¬ r > 1 := by omega
  rw [← isOkTx_iff]
  unfold submit_response declare_winner
  simp [hph, hps, hng, hv, hst, hmask, hp1v, hhubv, hsidv, fromOption]
  repeat' split
  all_goals rfl

/-- C2: with a pending shot awaiting proof and a well-formed call
(defender matches the pending shot, response in 0..1), `submit_response`
fails with `ProofInvalid` exactly when the 256-byte proof is all zero —
any proof with a non-zero byte is accepted by the placeholder verifier and
the call succeeds; and on the `ProofInvalid` failure the transaction
reverts, so the phase stays `WaitingForProof` and the pending shot is
still present, letting the defender retry with a new proof. -/
theorem C2_proof_invalid_iff_all_zero (s : Storage) (ps : PendingShot) (r : Nat)
    (pf : List Nat) (st : PlayerState)
    (hph : s.phase = some GamePhase.WaitingForProof)
    (hps : s.pendingShot = some ps)
    (hr : r ≤ 1)
    (hlen : pf.length = 256)
    (hst : psGet s.playerStates ps.defender = some st)
    (hidx : ps.x * 10 + ps.y < st.shot_mask.length)
    (hhub : s.hubAddress.isSome = true)
    (hsid : s.sessionId.isSome = true)
    (hp1 : s.player1.isSome = true) :
    (submit_response s ps.defender r pf = fail GameError.ProofInvalid ↔ ∀ c ∈ pf, c = 0) ∧
    (∀ pf2, (∃ c ∈ pf2, c ≠ 0) →
      ∃ res, submit_response s ps.defender r pf2 = Except.ok res) ∧
    (∀ pf2, submit_response s ps.defender r pf2 = fail GameError.ProofInvalid →
      applyTx s (submit_response s ps.defender r pf2) = s ∧
      s.phase = some GamePhase.WaitingForProof ∧ s.pendingShot = some ps) := by
  have hverify : ∀ pf2 : List Nat, (∃ c ∈ pf2, c ≠ 0) → verify_zk_proof pf2 ps r = true := by
    intro pf2 hnz
    unfold verify_zk_proof
    rw [decide_eq_true_iff]
    intro heq
    obtain ⟨c, hc, hcne⟩ := hnz
    rw [heq] at hc
    exact hcne (List.eq_of_mem_replicate hc)
  refine ⟨⟨?_, ?_⟩, ?_, ?_⟩
  · intro herr
    by_contra hnzc
    push_neg at hnzc
    obtain ⟨res, hres⟩ :=
      submit_response_verified_ok hph hps hr (hverify pf hnzc) hst hidx hhub hsid hp1
    rw [hres] at herr
    simp [fail] at herr
  · intro hz
    have hpfz : pf = List.replicate 256 0 := List.eq_replicate_iff.mpr ⟨hlen, hz⟩
    rw [hpfz]
    exact submit_response_zero_proof hph hps hr
  · intro pf2 hnz
    exact submit_response_verified_ok hph hps hr (hverify pf2 hnz) hst hidx hhub hsid hp1
  · intro pf2 herr
    rw [herr]
    exact ⟨rfl, hph, hps⟩

/-- C2 witness: at the concrete state `demo3` (pending shot by player 1
at (3,4) against player 2), the all-zero proof is rejected with
`ProofInvalid` and any non-zero proof succeeds. -/
theorem C2_proof_invalid_iff_all_zero_witness :
    (submit_response demo3 2 1 (List.replicate 256 0) = fail GameError.ProofInvalid ↔
      ∀ c ∈ List.replicate 256 0, c = 0) ∧
    (∀ pf2, (∃ c ∈ pf2, c ≠ 0) →
      ∃ res, submit_response demo3 2 1 pf2 = Except.ok res) ∧
    (∀ pf2, submit_response demo3 2 1 pf2 = fail GameError.ProofInvalid →
      applyTx demo3 (submit_response demo3 2 1 pf2) = demo3 ∧
      demo3.phase = some GamePhase.WaitingForProof ∧
      demo3.pendingShot = some (PendingShot.mk 1 2 3 4)) :=
  C2_proof_invalid_iff_all_zero demo3 (PendingShot.mk 1 2 3 4) 1
    (List.replicate 256 0) demo3p2 rfl rfl (by omega) (by rw [List.length_replicate])
    rfl (by decide)
    rfl rfl rfl

/-! ## Claim C7 -/

/-- C7: after a successful `submit_response` that does not end the game
(the defender's hit counter stays below 17), the new phase is the turn of
the defender who was just shot at — `Player1Turn` iff the defender is
player 1 — and never the turn of the original attacker. -/
theorem C7_turn_passes_to_defender (s s' : Storage) (ps : PendingShot) (p1 p2 d : Addr)
    (r : Nat) (pf : List Nat) (b : Bool) (st' : PlayerState)
    (hp1 : s.player1 = some p1) (hp2 : s.player2 = some p2) (hne : p1 ≠ p2)
    (hps : s.pendingShot = some ps)
    (hpair : (ps.attacker = p1 ∧ ps.defender = p2) ∨ (ps.attacker = p2 ∧ ps.defender = p1))
    (hok : submit_response s d r pf = Except.ok (b, s'))
    (hst' : psGet s'.playerStates ps.defender = some st')
    (hlt : st'.hits_received < 17) :
    s'.phase =
      some (if ps.defender = p1 then GamePhase.Player1Turn else GamePhase.Player2Turn) ∧
    s'.phase ≠
      some (if ps.attacker = p1 then GamePhase.Player1Turn else GamePhase.Player2Turn) := by
  obtain ⟨psx, dst, mask', hph, hpsx, hdeq, hr, hv, hdst, hmask, dst', s1, hdst', hs1, hcase⟩ :=
    submit_response_ok hok
  rw [hps] at hpsx
  injection hpsx with hpsx
  subst hpsx
  subst hdst'
  subst hs1
  subst hdeq
  rcases hcase with ⟨hwin, _, _, _, _, rfl⟩ | ⟨hnw, p1x, hp1x, hb, rfl⟩
  · exfalso
    simp only [] at hst'
    rw [psGet_psSet_self] at hst'
    injection hst' with hst'
    subst hst'
    omega
  · rw [hp1] at hp1x
    injection hp1x with hp1x
    subst hp1x
    refine ⟨rfl, ?_⟩
    rcases hpair with ⟨ha, hd⟩ | ⟨ha, hd⟩
    · intro hc
      rw [hd, ha] at hc
      rw [if_neg (fun hcc : p2 = p1 => hne hcc.symm), if_pos (rfl : p1 = p1)] at hc
      simp at hc
    · intro hc
      rw [hd, ha] at hc
      rw [if_pos (rfl : p1 = p1), if_neg (fun hcc : p2 = p1 => hne hcc.symm)] at hc
      simp at hc

/-- C7 witness: `demo3 → demo4` — player 2 (the defender) was shot at, and
the phase after the response is `Player2Turn`, not player 1's turn. -/
theorem C7_turn_passes_to_defender_witness :
    demo4.phase =
      some (if (2 : Addr) = 1 then GamePhase.Player1Turn else GamePhase.Player2Turn) ∧
    demo4.phase ≠
      some (if (1 : Addr) = 1 then GamePhase.Player1Turn else GamePhase.Player2Turn) :=
  C7_turn_passes_to_defender demo3 demo4 (PendingShot.mk 1 2 3 4) 1 2 2 1
    (List.replicate 256 1) true demo4p2 rfl rfl (by decide) rfl (Or.inl ⟨rfl, rfl⟩)
    rfl rfl (by decide)

/-! ## Claim C3 -/

theorem commit_fleet_finished {s : Storage} (q : Addr) (c : List Nat)
    (hph : s.phase = some GamePhase.Finished) :
    commit_fleet s q c = fail GameError.InvalidPhase := by
  unfold commit_fleet
  simp [hph]

theorem fire_shot_finished {s : Storage} (a : Addr) (x y : Nat)
    (hph : s.phase = some GamePhase.Finished)
    (hp1 : s.player1.isSome = true) (hp2 : s.player2.isSome = true) :
    fire_shot s a x y = fail GameError.InvalidPhase := by
  obtain ⟨p1, hp1v⟩ := Option.isSome_iff_exists.mp hp1
  obtain ⟨p2, hp2v⟩ := Option.isSome_iff_exists.mp hp2
  unfold fire_shot
  simp [hph, hp1v, hp2v, fail]

theorem submit_response_finished {s : Storage} (d : Addr) (r : Nat) (pf : List Nat)
    (hph : s.phase = some GamePhase.Finished) :
    submit_response s d r pf = fail GameError.InvalidPhase := by
  unfold submit_response
  simp [hph]

theorem claim_victory_finished {s : Storage} (q : Addr)
    (hph : s.phase = some GamePhase.Finished)
    (hrp : require_player s q = Except.ok ()) :
    claim_victory s q = fail GameError.GameOver := by
  unfold claim_victory
  simp [hrp, hph]

theorem finished_no_step {s s2 : Storage} (h : Step s s2)
    (hph : s.phase = some GamePhase.Finished)
    (hp1 : s.player1.isSome = true) (hp2 : s.player2.isSome = true) : False := by
  cases h with
  | commit q c hok => rw [commit_fleet_finished q c hph] at hok; simp at hok
  | fire a x y hok => rw [fire_shot_finished a x y hph hp1 hp2] at hok; simp at hok
  | submit d r pf b hok => rw [submit_response_finished d r pf hph] at hok; simp at hok
  | claim q hok =>
    obtain ⟨_, _, ph, _, _, _, _, hphx, hfin, _, _, _, _⟩ := claim_victory_ok hok
    rw [hph] at hphx
    injection hphx with hphx
    exact hfin hphx.symm

/-- C3: when a successful `submit_response` raises the defender's hit
counter from below 17 to 17, the phase transitions to `Finished`, the
recorded winner is the attacker of the pending shot, the call returns
`is_hit` (true iff the response was 1 — and a 17th hit forces response 1),
and afterwards `commit_fleet`, `fire_shot` and `submit_response` all fail
with `InvalidPhase`, `claim_victory` by either player fails with
`GameOver`, and no further state transition is possible. -/
theorem C3_seventeenth_hit_finishes (s s' : Storage) (d : Addr) (r : Nat) (pf : List Nat)
    (b : Bool) (st st' : PlayerState)
    (hp2 : s.player2.isSome = true)
    (hst : psGet s.playerStates d = some st)
    (hlt : st.hits_received < 17)
    (hok : submit_response s d r pf = Except.ok (b, s'))
    (hst' : psGet s'.playerStates d = some st')
    (h17 : st'.hits_received = 17) :
    s'.phase = some GamePhase.Finished ∧
    (∀ ps, s.pendingShot = some ps → s'.winner = some ps.attacker) ∧
    b = (r == 1) ∧
    (∀ q c, commit_fleet s' q c = fail GameError.InvalidPhase) ∧
    (∀ a x y, fire_shot s' a x y = fail GameError.InvalidPhase) ∧
    (∀ d2 r2 pf2, submit_response s' d2 r2 pf2 = fail GameError.InvalidPhase) ∧
    (∀ q, require_player s' q = Except.ok () → claim_victory s' q = fail GameError.GameOver) ∧
    (∀ s2, ¬ Step s' s2) := by
  obtain ⟨ps, dst, mask', hph, hps, hdeq, hr, hv, hdst, hmask, dst', s1, hdst', hs1, hcase⟩ :=
    submit_response_ok hok
  rw [hst] at hdst
  injection hdst with hdst
  subst hdst
  subst hdst'
  subst hs1
  rcases hcase with ⟨hwin, hhubs, hsids, hp1s, hb, rfl⟩ | ⟨hnw, p1x, hp1x, hb, rfl⟩
  · simp only [] at hst'
    rw [hdeq, psGet_psSet_self] at hst'
    injection hst' with hst'
    subst hst'
    cases hr1 : (r == 1) with
    | false =>
      exfalso
      rw [hr1] at h17
      simp at h17
      omega
    | true =>
      refine ⟨rfl, ?_, ?_, ?_, ?_, ?_, ?_, ?_⟩
      · intro ps0 hps0
        rw [hps] at hps0
        injection hps0 with hps0
        subst hps0
        rfl
      · rw [hb]
      · exact fun q c => commit_fleet_finished q c rfl
      · exact fun a x y => fire_shot_finished a x y rfl hp1s hp2
      · exact fun d2 r2 pf2 => submit_response_finished d2 r2 pf2 rfl
      · exact fun q hrp => claim_victory_finished q rfl hrp
      · exact fun s2 hstep => finished_no_step hstep rfl hp1s hp2
  · exfalso
    simp only [] at hst'
    rw [hdeq, psGet_psSet_self] at hst'
    injection hst' with hst'
    subst hst'
    omega

/-- C3 witness: at `nearWinStorage` (player 2 on 16 hits, shot pending),
the hit response drives the counter to 17, finishes the game with player 1
as winner, and every further mutating call fails. -/
theorem C3_seventeenth_hit_finishes_witness :
    nearWinFinal.phase = some GamePhase.Finished ∧
    (∀ ps, nearWinStorage.pendingShot = some ps → nearWinFinal.winner = some ps.attacker) ∧
    (true : Bool) = ((1 : Nat) == 1) ∧
    (∀ q c, commit_fleet nearWinFinal q c = fail GameError.InvalidPhase) ∧
    (∀ a x y, fire_shot nearWinFinal a x y = fail GameError.InvalidPhase) ∧
    (∀ d2 r2 pf2, submit_response nearWinFinal d2 r2 pf2 = fail GameError.InvalidPhase) ∧
    (∀ q, require_player nearWinFinal q = Except.ok () →
      claim_victory nearWinFinal q = fail GameError.GameOver) ∧
    (∀ s2, ¬ Step nearWinFinal s2) :=
  C3_seventeenth_hit_finishes nearWinStorage nearWinFinal 2 1 (List.replicate 256 1)
    true nearWinPS nearWinP2 rfl rfl (by decide) rfl rfl (by decide)

/-! ## Claim C5 -/

theorem reach_rtg {s s' : Storage} (h : Reachable s)
    (hr : Relation.ReflTransGen Step s s') : Reachable s' := by
  obtain ⟨s0, h0, h1⟩ := h
  exact ⟨s0, h0, h1.trans hr⟩

/-- C5: along any sequence of operations on a reachable match state, a
player's `hits_received` is non-decreasing, always equals the number of
verified hit outcomes recorded in that player's shot history (it is
incremented by exactly one per verified hit, the only mutation), and never
exceeds 17. -/
theorem C5_hits_monotone_counted_bounded (s s' : Storage) (p : Addr)
    (st st' : PlayerState)
    (hreach : Reachable s)
    (hrtg : Relation.ReflTransGen Step s s')
    (hget : psGet s.playerStates p = some st)
    (hget' : psGet s'.playerStates p = some st') :
    st.hits_received ≤ st'.hits_received ∧
    st'.hits_received = countHits st'.shot_history ∧
    st'.hits_received ≤ 17 := by
  have hinv' : Inv s' := inv_reachable (reach_rtg hreach hrtg)
  obtain ⟨stm, hgetm, hle, _, _⟩ := rtg_records hrtg hget
  rw [hget'] at hgetm
  injection hgetm with he
  subst he
  exact ⟨hle, (hinv'.st_ok p st' hget').2, hinv'.hits_le p st' hget'⟩

/-- C5 witness: across `demo3 → demo4` player 2's counter goes from 0 to
1, equals the hit count of the history, and is at most 17. -/
theorem C5_hits_monotone_counted_bounded_witness :
    demo3p2.hits_received ≤ demo4p2.hits_received ∧
    demo4p2.hits_received = countHits demo4p2.shot_history ∧
    demo4p2.hits_received ≤ 17 :=
  C5_hits_monotone_counted_bounded demo3 demo4 2 demo3p2 demo4p2 reach_demo3
    (Relation.ReflTransGen.single step_d34) rfl rfl

/-! ## Claim C6 -/

/-- C6: (i) a shot-mask bit of any player, once set, is never reset for
the rest of the match; (ii) once `fire_shot` at (x, y) against a defender
has succeeded, no later `fire_shot` targeting the same defender at the
same coordinate can ever succeed again, and whenever such a repeat is
attempted by the player whose turn it is, it fails with `AlreadyShot` —
the mask is per-defender and permanent, whatever happened in between. -/
theorem C6_mask_permanent_no_refire (s : Storage) (hreach : Reachable s) :
    (∀ s', Relation.ReflTransGen Step s s' →
      ∀ a stp stp' i, psGet s.playerStates a = some stp →
        psGet s'.playerStates a = some stp' →
        maskGet stp.shot_mask i = true → maskGet stp'.shot_mask i = true) ∧
    (∀ a x y s1 s2 p1 p2 a2,
      fire_shot s a x y = Except.ok s1 →
      Relation.ReflTransGen Step s1 s2 →
      s.player1 = some p1 → s.player2 = some p2 → p1 ≠ p2 →
      (if a2 = p1 then p2 else p1) = (if a = p1 then p2 else p1) →
      (∀ s3, fire_shot s2 a2 x y ≠ Except.ok s3) ∧
      (((s2.phase = some GamePhase.Player1Turn ∧ a2 = p1) ∨
        (s2.phase = some GamePhase.Player2Turn ∧ a2 = p2)) →
        fire_shot s2 a2 x y = fail GameError.AlreadyShot)) := by
  constructor
  · intro s' hrtg a stp stp' i hget hget' hbit
    obtain ⟨stm, hgetm, _, hmono, _⟩ := rtg_records hrtg hget
    rw [hget'] at hgetm
    injection hgetm with he
    subst he
    exact hmono i hbit
  · intro a x y s1 s2 p1 p2 a2 hfire hrtg hp1 hp2 hne hdef
    obtain ⟨ph, p1x, p2x, dst, hph, hp1x, hp2x, hturn, hx, hy, hdst, hmaskf, rfl⟩ :=
      fire_shot_ok hfire
    rw [hp1] at hp1x
    injection hp1x with hp1x
    subst hp1x
    rw [hp2] at hp2x
    injection hp2x with hp2x
    subst hp2x
    have hinvS : Inv s := inv_reachable hreach
    have hinv1 : Inv _ := inv_step hinvS (Step.fire a x y hfire)
    have key : Inv s2 ∧
        ((∃ st2, psGet s2.playerStates (if a = p1 then p2 else p1) = some st2 ∧
            maskGet st2.shot_mask (x * 10 + y) = true) ∨
         s2.pendingShot = some (PendingShot.mk a (if a = p1 then p2 else p1) x y)) := by
      clear hdef
      induction hrtg with
      | refl => exact ⟨hinv1, Or.inr rfl⟩
      | tail hprev hstep ih =>
        obtain ⟨ihinv, ihdis⟩ := ih
        refine ⟨inv_step ihinv hstep, ?_⟩
        rcases ihdis with ⟨st2, hst2, hbit⟩ | hpend
        · obtain ⟨st3, hst3, _, _, hmono, _, _⟩ := step_records hstep hst2
          exact Or.inl ⟨st3, hst3, hmono _ hbit⟩
        · cases hstep with
          | commit q c hok =>
            obtain ⟨_, _, _, hphq, _⟩ := commit_fleet_ok hok
            have hwp := ihinv.pend_iff.mp (by simp [hpend])
            rw [hphq] at hwp
            injection hwp with hwp
            simp at hwp
          | fire af xf yf hok =>
            obtain ⟨phf, _, _, _, hphf, _, _, hturnf, _⟩ := fire_shot_ok hok
            have hwp := ihinv.pend_iff.mp (by simp [hpend])
            rw [hphf] at hwp
            injection hwp with hwp
            rcases hturnf with ⟨rfl, _⟩ | ⟨rfl, _⟩ <;> simp at hwp
          | claim q hok => exact absurd hok (claim_not_ok_of_inv ihinv)
          | submit ds rs pfs bs hok =>
            obtain ⟨pss, dsts, masks, hphs, hpss, hdeqs, hrs, hvs, hdsts, hmasks,
              dsts', s1s, hdsts', hs1s, hcases⟩ := submit_response_ok hok
            rw [hpend] at hpss
            injection hpss with hpss
            subst hpss
            subst hdsts'
            subst hs1s
            subst hdeqs
            left
            rcases hcases with ⟨_, _, _, _, _, rfl⟩ | ⟨_, p1s, _, _, rfl⟩ <;>
              exact ⟨_, psGet_psSet_self .., maskGet_vecSet_self hmasks⟩
    obtain ⟨hinv2, hdis⟩ := key
    obtain ⟨_, _, hc1, hc2⟩ := rtg_const hrtg
    have hs2p1 : s2.player1 = some p1 := by rw [hc1]; exact hp1
    have hs2p2 : s2.player2 = some p2 := by rw [hc2]; exact hp2
    constructor
    · intro s3 hfk
      obtain ⟨ph2, q1, q2, dst3, hph2, hq1, hq2, hturn2, _, _, hdst3, hmask3, _⟩ :=
        fire_shot_ok hfk
      rw [hs2p1] at hq1
      injection hq1 with hq1
      subst hq1
      rw [hs2p2] at hq2
      injection hq2 with hq2
      subst hq2
      rcases hdis with ⟨st2, hst2, hbit⟩ | hpend2
      · rw [hdef] at hdst3
        rw [hst2] at hdst3
        injection hdst3 with he
        subst he
        rw [hbit] at hmask3
        simp at hmask3
      · have hwp := hinv2.pend_iff.mp (by simp [hpend2])
        rw [hph2] at hwp
        injection hwp with hwp
        rcases hturn2 with ⟨rfl, _⟩ | ⟨rfl, _⟩ <;> simp at hwp
    · intro hturn2
      rcases hdis with ⟨st2, hst2, hbit⟩ | hpend2
      · have hbnd : ¬(10 ≤ x ∨ 10 ≤ y) := by omega
        rcases hturn2 with ⟨hph2, ha2⟩ | ⟨hph2, ha2⟩
        · have ha2' := ha2.symm
          subst ha2'
          have hd2 : p2 = (if a = p1 then p2 else p1) := by rw [← hdef]; simp
          rw [← hd2] at hst2
          unfold fire_shot
          simp [hph2, hs2p1, hs2p2, hbnd, hst2, hbit, fail]
        · have ha2' := ha2.symm
          subst ha2'
          have hne' : ¬ p2 = p1 := fun hc => hne hc.symm
          have hd2 : p1 = (if a = p1 then p2 else p1) := by rw [← hdef]; simp [hne']
          rw [← hd2] at hst2
          unfold fire_shot
          simp [hph2, hs2p1, hs2p2, hbnd, hst2, hbit, hne', fail]
      · have hwp := hinv2.pend_iff.mp (by simp [hpend2])
        rcases hturn2 with ⟨hph2, _⟩ | ⟨hph2, _⟩ <;>
          · rw [hph2] at hwp
            injection hwp with hwp
            simp at hwp

/-- C6 witness: the theorem instantiated at the concrete reachable state
`demo2` (both fleets committed, player 1 to move). -/
theorem C6_mask_permanent_no_refire_witness :
    (∀ s', Relation.ReflTransGen Step demo2 s' →
      ∀ a stp stp' i, psGet demo2.playerStates a = some stp →
        psGet s'.playerStates a = some stp' →
        maskGet stp.shot_mask i = true → maskGet stp'.shot_mask i = true) ∧
    (∀ a x y s1 s2 p1 p2 a2,
      fire_shot demo2 a x y = Except.ok s1 →
      Relation.ReflTransGen Step s1 s2 →
      demo2.player1 = some p1 → demo2.player2 = some p2 → p1 ≠ p2 →
      (if a2 = p1 then p2 else p1) = (if a = p1 then p2 else p1) →
      (∀ s3, fire_shot s2 a2 x y ≠ Except.ok s3) ∧
      (((s2.phase = some GamePhase.Player1Turn ∧ a2 = p1) ∨
        (s2.phase = some GamePhase.Player2Turn ∧ a2 = p2)) →
        fire_shot s2 a2 x y = fail GameError.AlreadyShot)) :=
  C6_mask_permanent_no_refire demo2 reach_demo2

end Battleship
